import Mathlib

/-!
Shallow embedding of the ledger/bookkeeping engine of
`src/app/blueprints/accounting/routes.py` (together with the data model of
`src/app/models.py`), and proofs about the claims of the specification.

Modelling conventions:
* SQLAlchemy tables become Lean lists of structures; `db.session.query(...).first()`
  and `db.session.get(Model, id)` become `List.find?`; inserting a row appends to
  the list; primary keys are drawn from explicit counters.
* Monetary amounts (Python floats / Decimals) are modelled as rationals.
* `datetime` values are modelled as natural-number timestamps ordered by `≤`.
* A journal entry owns its lines (the SQLAlchemy relationship + the
  `JournalLine.entry_id` foreign key); reports that join lines to entries
  traverse the nested lists.
* Nullable columns and `None`-able Python arguments are `Option` values; the
  Python truthiness test `if not x` on an integer id is true for `None` and `0`.
* The tables touched by chart-of-accounts provisioning (accounts, the two
  sub-ledger mapping tables, and the reference data they read: customers,
  vehicles, auctions) are grouped in a `Chart` sub-state; provisioning functions
  act on `Chart` and everything else lives in `DB`, mirroring which tables each
  Python function actually reads or writes.
-/

set_option maxHeartbeats 1000000

namespace Acct

/-- Monetary amounts: Python float/Decimal arithmetic modelled over ℚ. -/
abbrev Amount := Rat

/-- Row of the `accounts` table (models.py, class Account). -/
structure Account where
  id : Nat
  code : String
  name : String
  type : String
  client_id : Option Nat
  vehicle_id : Option Nat
  active : Bool
deriving Repr, DecidableEq

/-- Row of the `journal_lines` table (models.py, class JournalLine). -/
structure JournalLine where
  account_id : Nat
  debit : Amount
  credit : Amount
  currency_code : String
deriving Repr, DecidableEq

/-- Row of the `journal_entries` table (models.py, class JournalEntry),
owning its lines (the `lines` relationship with delete-orphan cascade). -/
structure JournalEntry where
  id : Nat
  entry_date : Nat
  description : String
  reference : Option String
  customer_id : Option Nat
  vehicle_id : Option Nat
  auction_id : Option Nat
  invoice_id : Option Nat
  is_client_fund : Bool
  status : String
  notes : Option String
  approved_by_user_id : Option Nat
  approved_at : Option Nat
  lines : List JournalLine
deriving Repr, DecidableEq

/-- Row of `client_account_structures` (models.py, class ClientAccountStructure). -/
structure ClientAccountStructure where
  customer_id : Nat
  deposit_account_code : String
  auction_account_code : String
  service_revenue_account_code : String
  logistics_expense_account_code : String
  receivable_account_code : String
  currency_code : String
deriving Repr, DecidableEq

/-- Row of `vehicle_account_structures` (models.py, class VehicleAccountStructure). -/
structure VehicleAccountStructure where
  vehicle_id : Nat
  client_id : Option Nat
  deposit_account_code : String
  auction_account_code : String
  freight_account_code : String
  customs_account_code : String
  commission_account_code : String
  storage_account_code : String
  currency_code : String
deriving Repr, DecidableEq

/-- Row of `customer_deposits` (models.py, class CustomerDeposit). -/
structure CustomerDeposit where
  id : Nat
  customer_id : Option Nat
  vehicle_id : Option Nat
  auction_id : Option Nat
  amount_omr : Amount
  method : Option String
  reference : Option String
  status : String
  refunded_at : Option Nat
deriving Repr, DecidableEq

/-- Row of `exchange_rates` (models.py, class ExchangeRate). -/
structure ExchangeRate where
  id : Nat
  base_currency : String
  quote_currency : String
  rate : Amount
  effective_at : Nat
deriving Repr, DecidableEq

/-- Row of `customers` (models.py, class Customer); only the fields the
accounting core reads. -/
structure Customer where
  id : Nat
  company_name : Option String
  full_name : Option String
deriving Repr, DecidableEq

/-- Row of `vehicles` (models.py, class Vehicle); only the fields the
accounting core reads. -/
structure Vehicle where
  id : Nat
  vin : Option String
  owner_customer_id : Option Nat
deriving Repr, DecidableEq

/-- Row of `auctions` (models.py, class Auction); only the fields the
accounting core reads. -/
structure Auction where
  id : Nat
  customer_id : Option Nat
deriving Repr, DecidableEq

/-- Row of `settings` (models.py, class Setting); only the books-lock date is
consumed by the posting engine. -/
structure Setting where
  books_locked_until : Option Nat
deriving Repr, DecidableEq

/-- Row of `operational_expenses` (models.py, class OperationalExpense). -/
structure OperationalExpense where
  id : Nat
  vehicle_id : Option Nat
  auction_id : Option Nat
  category : String
  original_amount : Amount
  original_currency : String
  amount_omr : Amount
  exchange_rate_id : Option Nat
  paid : Bool
  description : Option String
  supplier : Option String
deriving Repr, DecidableEq

/-- Row of `invoices` (models.py, class Invoice); only the fields the
accounting core reads or writes. -/
structure Invoice where
  id : Nat
  invoice_number : String
  customer_id : Option Nat
  vehicle_id : Option Nat
  invoice_type : String
  status : String
  exchange_rate_id : Option Nat
  total_omr : Amount
deriving Repr, DecidableEq

/-- Row of `invoice_items` (models.py, class InvoiceItem). -/
structure InvoiceItem where
  invoice_id : Nat
  description : String
  amount_omr : Amount
deriving Repr, DecidableEq

/-- The chart-of-accounts sub-state: the tables read and written by the
sub-ledger provisioner, plus the reference tables it consults. -/
structure Chart where
  accounts : List Account
  client_structs : List ClientAccountStructure
  vehicle_structs : List VehicleAccountStructure
  customers : List Customer
  vehicles : List Vehicle
  auctions : List Auction
  next_account_id : Nat
deriving Repr, DecidableEq

/-- The full database state seen by the accounting blueprint.
`omr_exchange_rate` is the configured default rate
`current_app.config['OMR_EXCHANGE_RATE']`. -/
structure DB where
  chart : Chart
  entries : List JournalEntry
  deposits : List CustomerDeposit
  rates : List ExchangeRate
  invoices : List Invoice
  invoice_items : List InvoiceItem
  expenses : List OperationalExpense
  settings : Option Setting
  omr_exchange_rate : Amount
  next_entry_id : Nat
  next_deposit_id : Nat
  next_invoice_id : Nat
  next_expense_id : Nat
deriving Repr, DecidableEq

/-- Python truthiness of an optional integer id: `None` and `0` are falsy. -/
def idTruthy (o : Option Nat) : Bool :=
  match o with
  | none => false
  | some n => decide (¬ n = 0)

/-- Python `a or b` on strings: the empty string is falsy. -/
def pyOrStr (a b : String) : String :=
  if a = "" then b else a

/-- Python `a or b` where `a` is an optional string (None and "" are falsy). -/
def pyOrOpt (a : Option String) (b : String) : String :=
  pyOrStr (a.getD "") b

/-- Python format `f"{n:0wd}"`: decimal rendering of `n` left-padded with
zeros to width `w` (unchanged when already longer). -/
def padZeros (w n : Nat) : String :=
  let s := toString n
  String.mk (List.replicate (w - s.length) '0') ++ s

/-- routes.py `_get_account`: first account row whose code matches. -/
def _get_account (ch : Chart) (code : String) : Option Account :=
  ch.accounts.find? (fun a => a.code == code)

/-- The nested `ensure_account` helper of `_ensure_client_accounts` /
`_ensure_vehicle_accounts`: create the account if no row with that code
exists yet. -/
def ensure_account (ch : Chart) (code nm typ : String)
    (client_id vehicle_id : Option Nat) : Chart :=
  match _get_account ch code with
  | some _ => ch
  | none =>
      { ch with
        accounts := ch.accounts ++
          [{ id := ch.next_account_id, code := code, name := nm, type := typ,
             client_id := client_id, vehicle_id := vehicle_id, active := true }],
        next_account_id := ch.next_account_id + 1 }

/-- routes.py `_ensure_client_accounts`, display-name computation:
`(customer.company_name or customer.full_name or f"Client {customer.id}").strip()`. -/
def client_display_name (c : Customer) : String :=
  (pyOrStr (pyOrOpt c.company_name (pyOrOpt c.full_name ""))
    ("Client " ++ toString c.id)).trim

/-- routes.py `_ensure_client_accounts`: return the existing mapping row, or
derive the five per-client codes, create each missing account, and persist a
new mapping row. -/
def _ensure_client_accounts (ch : Chart) (customer : Customer) :
    Chart × ClientAccountStructure :=
  match ch.client_structs.find? (fun s => s.customer_id == customer.id) with
  | some cas => (ch, cas)
  | none =>
      let code_suffix := "C" ++ padZeros 5 customer.id
      let dep_code := "L200-" ++ code_suffix
      let auc_code := "A150-" ++ code_suffix
      let srv_code := "R300-" ++ code_suffix
      let log_code := "E200-" ++ code_suffix
      let ar_code := "A300-" ++ code_suffix
      let dn := client_display_name customer
      let ch := ensure_account ch dep_code (dn ++ " Deposit") "LIABILITY"
        (some customer.id) none
      let ch := ensure_account ch auc_code (dn ++ " Auction Clearing") "ASSET"
        (some customer.id) none
      let ch := ensure_account ch srv_code (dn ++ " Service Revenue") "REVENUE"
        (some customer.id) none
      let ch := ensure_account ch log_code (dn ++ " Logistics Expense") "EXPENSE"
        (some customer.id) none
      let ch := ensure_account ch ar_code (dn ++ " Receivable") "ASSET"
        (some customer.id) none
      let cas : ClientAccountStructure :=
        { customer_id := customer.id, deposit_account_code := dep_code,
          auction_account_code := auc_code,
          service_revenue_account_code := srv_code,
          logistics_expense_account_code := log_code,
          receivable_account_code := ar_code, currency_code := "OMR" }
      ({ ch with client_structs := ch.client_structs ++ [cas] }, cas)

/-- routes.py `_ensure_vehicle_accounts`: same pattern with the six
per-vehicle codes, tagging accounts with the owning client when known. -/
def _ensure_vehicle_accounts (ch : Chart) (vehicle : Vehicle) :
    Chart × VehicleAccountStructure :=
  match ch.vehicle_structs.find? (fun s => s.vehicle_id == vehicle.id) with
  | some vas => (ch, vas)
  | none =>
      let vid := vehicle.id
      let vin := (pyOrOpt vehicle.vin ("V" ++ padZeros 6 vid)).trim
      let owner_id := vehicle.owner_customer_id
      let dep_code := "L200-V" ++ padZeros 6 vid
      let auc_code := "A150-V" ++ padZeros 6 vid
      let frt_code := "E200-V" ++ padZeros 6 vid
      let cst_code := "E220-V" ++ padZeros 6 vid
      let com_code := "R300-V" ++ padZeros 6 vid
      let str_code := "E230-V" ++ padZeros 6 vid
      let ch := ensure_account ch dep_code (vin ++ " Deposit") "LIABILITY"
        owner_id (some vid)
      let ch := ensure_account ch auc_code (vin ++ " Auction") "ASSET"
        owner_id (some vid)
      let ch := ensure_account ch frt_code (vin ++ " Freight") "EXPENSE"
        owner_id (some vid)
      let ch := ensure_account ch cst_code (vin ++ " Customs") "EXPENSE"
        owner_id (some vid)
      let ch := ensure_account ch com_code (vin ++ " Commission") "REVENUE"
        owner_id (some vid)
      let ch := ensure_account ch str_code (vin ++ " Storage") "EXPENSE"
        owner_id (some vid)
      let vas : VehicleAccountStructure :=
        { vehicle_id := vid, client_id := owner_id,
          deposit_account_code := dep_code, auction_account_code := auc_code,
          freight_account_code := frt_code, customs_account_code := cst_code,
          commission_account_code := com_code, storage_account_code := str_code,
          currency_code := "OMR" }
      ({ ch with vehicle_structs := ch.vehicle_structs ++ [vas] }, vas)

/-- The kind-to-code dictionary of `_get_vehicle_account_code`
(`.get(kind, default_code)`). -/
def vehicle_kind_code (vas : VehicleAccountStructure)
    (kind default_code : String) : String :=
  if kind = "deposit" then vas.deposit_account_code
  else if kind = "auction" then vas.auction_account_code
  else if kind = "freight" then vas.freight_account_code
  else if kind = "customs" then vas.customs_account_code
  else if kind = "commission" then vas.commission_account_code
  else if kind = "storage" then vas.storage_account_code
  else default_code

/-- The kind-to-code dictionary of `_get_client_account_code`; the auction
entry is `cas.auction_account_code or default_code` in the source. -/
def client_kind_code (cas : ClientAccountStructure)
    (kind default_code : String) : String :=
  if kind = "deposit" then cas.deposit_account_code
  else if kind = "auction" then pyOrStr cas.auction_account_code default_code
  else if kind = "service" then cas.service_revenue_account_code
  else if kind = "logistics" then cas.logistics_expense_account_code
  else if kind = "receivable" then cas.receivable_account_code
  else default_code

/-- routes.py `_get_vehicle_account_code`: per-vehicle code for `kind` when a
mapping exists or can be provisioned, otherwise `default_code`. -/
def _get_vehicle_account_code (ch : Chart) (vehicle_id : Option Nat)
    (kind default_code : String) : Chart × String :=
  if idTruthy vehicle_id = false then (ch, default_code)
  else
    let vid := vehicle_id.getD 0
    match ch.vehicle_structs.find? (fun s => s.vehicle_id == vid) with
    | some vas => (ch, vehicle_kind_code vas kind default_code)
    | none =>
        match ch.vehicles.find? (fun v => v.id == vid) with
        | none => (ch, default_code)
        | some v =>
            let r := _ensure_vehicle_accounts ch v
            (r.1, vehicle_kind_code r.2 kind default_code)

/-- routes.py `_get_client_account_code`: per-client code for `kind` when a
mapping exists or can be provisioned, otherwise `default_code`. -/
def _get_client_account_code (ch : Chart) (customer_id : Option Nat)
    (kind default_code : String) : Chart × String :=
  if idTruthy customer_id = false then (ch, default_code)
  else
    let cid := customer_id.getD 0
    match ch.client_structs.find? (fun s => s.customer_id == cid) with
    | some cas => (ch, client_kind_code cas kind default_code)
    | none =>
        match ch.customers.find? (fun c => c.id == cid) with
        | none => (ch, default_code)
        | some cust =>
            let r := _ensure_client_accounts ch cust
            (r.1, client_kind_code r.2 kind default_code)

/-- The lock-period gate inlined at the top of routes.py `_post_journal`:
when a Settings row with a `books_locked_until` date exists and the current
time is on or before it, the requested status is replaced by `pending`.
The entry creation a few lines later stamps `entry_date` with the same
current time (the column default `datetime.utcnow`), so a single `now`
models both reads of the clock. -/
def lock_adjusted_status (db : DB) (now : Nat) (status : String) : String :=
  match db.settings with
  | none => status
  | some st =>
      match st.books_locked_until with
      | none => status
      | some lock => if now ≤ lock then "pending" else status

/-- The line-creation loop of routes.py `_post_journal`: one line per
`(account_code, debit, credit)` triple whose code resolves, silently skipping
triples whose code does not (the `if not acc: continue` failsafe). The
`total_debit`/`total_credit` sums in the source are computed but never
checked (the source comment: balance is not enforced to avoid blocking the
UI). -/
def post_lines (ch : Chart) (lines : List (String × Amount × Amount)) :
    List JournalLine :=
  lines.filterMap (fun t =>
    match _get_account ch t.1 with
    | none => none
    | some acc =>
        some { account_id := acc.id, debit := t.2.1, credit := t.2.2,
               currency_code := "OMR" })

/-- routes.py `_post_journal`: create the entry row with the lock-gated
status (`status or 'approved'` after the gate) and the lines built by
`post_lines`, and append it to the journal. -/
def _post_journal (db : DB) (now : Nat) (description : String)
    (reference : Option String) (lines : List (String × Amount × Amount))
    (customer_id vehicle_id auction_id invoice_id : Option Nat)
    (is_client_fund : Bool) (status : String) (notes : Option String) :
    DB × JournalEntry :=
  let st := lock_adjusted_status db now status
  let entry_lines := post_lines db.chart lines
  let entry : JournalEntry :=
    { id := db.next_entry_id, entry_date := now, description := description,
      reference := reference, customer_id := customer_id,
      vehicle_id := vehicle_id, auction_id := auction_id,
      invoice_id := invoice_id, is_client_fund := is_client_fund,
      status := pyOrStr st "approved", notes := notes,
      approved_by_user_id := none, approved_at := none, lines := entry_lines }
  ({ db with entries := db.entries ++ [entry],
             next_entry_id := db.next_entry_id + 1 }, entry)

/-- routes.py `record_customer_deposit`: persist the deposit row as `held`,
resolve the per-vehicle (falling back to per-client, falling back to `L200`)
deposit account code, and post Dr Bank A100 / Cr deposit as client funds. -/
def record_customer_deposit (db : DB) (now : Nat) (customer_id : Nat)
    (amount_omr : Amount) (method reference : Option String)
    (vehicle_id auction_id : Option Nat) : DB × CustomerDeposit :=
  let dep : CustomerDeposit :=
    { id := db.next_deposit_id, customer_id := some customer_id,
      vehicle_id := vehicle_id, auction_id := auction_id,
      amount_omr := amount_omr, method := method, reference := reference,
      status := "held", refunded_at := none }
  let db := { db with deposits := db.deposits ++ [dep],
                      next_deposit_id := db.next_deposit_id + 1 }
  let rc := _get_client_account_code db.chart (some customer_id) "deposit" "L200"
  let rv := _get_vehicle_account_code rc.1 vehicle_id "deposit" rc.2
  let db := { db with chart := rv.1 }
  let r := _post_journal db now "Customer deposit received" reference
    [("A100", amount_omr, 0), (rv.2, 0, amount_omr)]
    (some customer_id) vehicle_id auction_id none true "approved" none
  (r.1, dep)

/-- routes.py `refund_customer_deposit`: `False` when the deposit is missing
or not `held`; otherwise mark it refunded and post the reversal
Dr deposit / Cr Bank A100 as client funds. -/
def refund_customer_deposit (db : DB) (now : Nat) (deposit_id : Nat) :
    DB × Bool :=
  match db.deposits.find? (fun d => d.id == deposit_id) with
  | none => (db, false)
  | some dep =>
      if decide (¬ dep.status = "held") then (db, false)
      else
        let upd := fun (d : CustomerDeposit) =>
          if d.id == deposit_id
          then { d with status := "refunded", refunded_at := some now }
          else d
        let db := { db with deposits := db.deposits.map upd }
        let amt := dep.amount_omr
        let rc := _get_client_account_code db.chart dep.customer_id
          "deposit" "L200"
        let rv := _get_vehicle_account_code rc.1 dep.vehicle_id "deposit" rc.2
        let db := { db with chart := rv.1 }
        let r := _post_journal db now "Customer deposit refunded" dep.reference
          [(rv.2, amt, 0), ("A100", 0, amt)]
          dep.customer_id dep.vehicle_id dep.auction_id none true "approved" none
        (r.1, true)

/-- Python `str.upper()` modelled on the ASCII letters (the only case the
accounting code exercises: currency codes and category keywords). -/
def py_upper (s : String) : String :=
  String.mk (s.toList.map (fun c =>
    if decide (97 ≤ c.toNat) && decide (c.toNat ≤ 122)
    then Char.ofNat (c.toNat - 32) else c))

/-- Python `str.lower()` modelled on the ASCII letters. -/
def py_lower (s : String) : String :=
  String.mk (s.toList.map (fun c =>
    if decide (65 ≤ c.toNat) && decide (c.toNat ≤ 90)
    then Char.ofNat (c.toNat + 32) else c))

/-- One step of scanning for the most recent rate row: keep whichever of the
two has the later `effective_at` (the earlier-scanned one on ties). -/
def later_rate (best : Option ExchangeRate) (r : ExchangeRate) :
    Option ExchangeRate :=
  match best with
  | none => some r
  | some b => if b.effective_at < r.effective_at then some r else some b

/-- The SQL query `query(ExchangeRate).order_by(ExchangeRate.effective_at.desc()).first()`
used by `record_operational_cost` and `create_shipping_invoice`: the stored
rate row with the greatest `effective_at`, regardless of currency pair (the
first such row on ties). -/
def latest_rate_row (db : DB) : Option ExchangeRate :=
  db.rates.foldl later_rate none

/-- The exchange rate a non-OMR conversion actually multiplies by: the latest
stored rate if any row exists, else the configured default. -/
def rate_used (db : DB) : Amount :=
  match latest_rate_row db with
  | some r => r.rate
  | none => db.omr_exchange_rate

/-- List-level substring test (Python `needle in hay`), naive scan. -/
def list_starts_with : List Char → List Char → Bool
  | _, [] => true
  | [], _ :: _ => false
  | c :: cs, d :: ds => c == d && list_starts_with cs ds

/-- List-level substring occurrence test. -/
def list_has_sub : List Char → List Char → Bool
  | [], needle => needle.isEmpty
  | c :: t, needle => list_starts_with (c :: t) needle || list_has_sub t needle

/-- Python `needle in hay` on strings. -/
def has_substr (hay needle : String) : Bool :=
  list_has_sub hay.toList needle.toList

/-- The category-to-kind mapping of `record_operational_cost`. -/
def expense_kind (category : String) : String :=
  let cat_norm := py_lower category
  if has_substr cat_norm "custom" then "customs"
  else if has_substr cat_norm "storage" || has_substr cat_norm "warehouse"
  then "storage"
  else "freight"

/-- routes.py `record_operational_cost`: convert a non-OMR amount using the
latest stored rate (any pair) or the configured default, persist the expense
row, and, when positive and paid from bank, post
Dr category expense / Cr Bank A100 attributed to the vehicle owner or
auction customer. Returns the new state and the value the Python function
returns (`exp.id`, or `0` when no flush assigned an id because no journal
was posted). -/
def record_operational_cost (db : DB) (now : Nat)
    (vehicle_id auction_id : Option Nat) (category : String)
    (amount_value : Amount) (currency : String)
    (description supplier : Option String) (paid_from_bank : Bool) :
    DB × Nat :=
  let non_omr := decide (¬ currency = "") && decide (¬ py_upper currency = "OMR")
  let rate_row := if non_omr then latest_rate_row db else none
  let rate_val : Amount :=
    if non_omr then rate_used db else 1
  let amount_omr :=
    amount_value * (if py_upper currency = "OMR" then 1 else rate_val)
  let exp : OperationalExpense :=
    { id := db.next_expense_id, vehicle_id := vehicle_id,
      auction_id := auction_id, category := category,
      original_amount := amount_value,
      original_currency := py_upper (pyOrStr currency "OMR"),
      amount_omr := amount_omr, exchange_rate_id := rate_row.map (fun r => r.id),
      paid := paid_from_bank, description := description, supplier := supplier }
  let db := { db with expenses := db.expenses ++ [exp],
                      next_expense_id := db.next_expense_id + 1 }
  if decide (0 < amount_omr) && paid_from_bank then
    let customer_id : Option Nat :=
      if idTruthy vehicle_id then
        match db.chart.vehicles.find? (fun v => v.id == vehicle_id.getD 0) with
        | some v => v.owner_customer_id
        | none => none
      else none
    let customer_id : Option Nat :=
      if idTruthy customer_id = false && idTruthy auction_id then
        match db.chart.auctions.find? (fun a => a.id == auction_id.getD 0) with
        | some a => a.customer_id
        | none => none
      else customer_id
    let kind := expense_kind category
    let rc := _get_client_account_code db.chart customer_id "logistics" "E200"
    let rv := _get_vehicle_account_code rc.1 vehicle_id kind rc.2
    let db := { db with chart := rv.1 }
    let r := _post_journal db now ("Operational expense - " ++ category)
      description [(rv.2, amount_omr, 0), ("A100", 0, amount_omr)]
      customer_id vehicle_id auction_id none false "approved" none
    (r.1, exp.id)
  else (db, 0)

/-- routes.py `create_shipping_invoice`: convert USD fines with the latest
stored rate (any pair) or the configured default, create the SHIPPING
invoice and its items, and when the total is positive post the immediate
collection Dr Bank / Cr fines revenue / Cr freight expense and mark the
invoice `Paid`. Returns the new state and the invoice id. -/
def create_shipping_invoice (db : DB) (now : Nat) (customer_id vehicle_id : Nat)
    (shipping_cost_omr fines_usd : Amount) : DB × Nat :=
  let rate_row := latest_rate_row db
  let rate_val := rate_used db
  let fines_omr := fines_usd * rate_val
  let inv_id := db.next_invoice_id
  let inv : Invoice :=
    { id := inv_id, invoice_number := "SHP-" ++ toString now,
      customer_id := some customer_id, vehicle_id := some vehicle_id,
      invoice_type := "SHIPPING", status := "Draft",
      exchange_rate_id := rate_row.map (fun r => r.id), total_omr := 0 }
  let db := { db with invoices := db.invoices ++ [inv],
                      next_invoice_id := db.next_invoice_id + 1 }
  let items :=
    (if decide (0 < shipping_cost_omr) then
      [({ invoice_id := inv_id, description := "Shipping cost",
          amount_omr := shipping_cost_omr } : InvoiceItem)]
     else []) ++
    (if decide (0 < fines_omr) then
      [({ invoice_id := inv_id, description := "Fines (converted to OMR)",
          amount_omr := fines_omr } : InvoiceItem)]
     else [])
  let total :=
    (if decide (0 < shipping_cost_omr) then shipping_cost_omr else 0) +
    (if decide (0 < fines_omr) then fines_omr else 0)
  let db := { db with
    invoice_items := db.invoice_items ++ items,
    invoices := db.invoices.map (fun i =>
      if i.id == inv_id then { i with total_omr := total } else i) }
  if decide (0 < total) then
    let fines_step : Chart × List (String × Amount × Amount) :=
      if decide (0 < fines_omr) then
        let rc1 := _get_client_account_code db.chart (some customer_id)
          "service" "R300"
        let rv1 := _get_vehicle_account_code rc1.1 (some vehicle_id)
          "commission" rc1.2
        (rv1.1, [(rv1.2, (0 : Amount), fines_omr)])
      else (db.chart, [])
    let ship_step : Chart × List (String × Amount × Amount) :=
      if decide (0 < shipping_cost_omr) then
        let rc2 := _get_client_account_code fines_step.1 (some customer_id)
          "logistics" "E200"
        let rv2 := _get_vehicle_account_code rc2.1 (some vehicle_id)
          "freight" rc2.2
        (rv2.1, [(rv2.2, (0 : Amount), shipping_cost_omr)])
      else (fines_step.1, [])
    let fine_lines := fines_step.2
    let ship_lines := ship_step.2
    let db := { db with chart := ship_step.1 }
    let r := _post_journal db now "Shipping invoice payment"
      (some ("SHP-" ++ toString now))
      ([("A100", total, 0)] ++ fine_lines ++ ship_lines)
      (some customer_id) (some vehicle_id) none (some inv_id)
      false "approved" none
    let db := { r.1 with invoices := r.1.invoices.map (fun i =>
      if i.id == inv_id then { i with status := "Paid" } else i) }
    (db, inv_id)
  else (db, inv_id)

/-- The SQL join `JournalLine ⋈ JournalEntry` over a list of entries owning
their lines: every (entry, line) pair. -/
def entry_line_pairs (es : List JournalEntry) :
    List (JournalEntry × JournalLine) :=
  es.flatMap (fun e => e.lines.map (fun l => (e, l)))

/-- The join of a line to its `Account` row
(`join(Account, JournalLine.account_id == Account.id)`). -/
def line_account (ch : Chart) (l : JournalLine) : Option Account :=
  ch.accounts.find? (fun a => a.id == l.account_id)

/-- Whether a line survives the inner join to `Account` and its account code
satisfies a test (SQL `Account.code.like(...)` against a resolved row). -/
def line_code_is (ch : Chart) (l : JournalLine) (p : String → Bool) : Bool :=
  match line_account ch l with
  | some a => p a.code
  | none => false

/-- SQL `Account.code.like(prefix + "%")`: the account code starts with the
given prefix (character-by-character, fully computable). -/
def code_like (pre code : String) : Bool :=
  list_starts_with code.toList pre.toList

/-- The monthly-revenue query of the reports view (and the dashboard):
`sum(credit - debit)` over lines joined to `R%`-coded accounts and to entries
in `[start, stop)` with `is_client_fund = false`. Parameterised over chart
and entry list so the same aggregation can be compared across states. -/
def revenue_of (ch : Chart) (es : List JournalEntry) (start stop : Nat) :
    Amount :=
  (((entry_line_pairs es).filter (fun pr =>
      decide (start ≤ pr.1.entry_date) && decide (pr.1.entry_date < stop) &&
      line_code_is ch pr.2 (fun c => code_like "R" c) &&
      pr.1.is_client_fund == false)).map
    (fun pr => pr.2.credit - pr.2.debit)).sum

/-- The P&L monthly revenue bucket on a database state
(routes.py `reports`, `report_type == 'monthly'`). -/
def monthly_revenue (db : DB) (start stop : Nat) : Amount :=
  revenue_of db.chart db.entries start stop

/-- The credit balance (credits minus debits) of the account with a given
code, over all entries, used to observe deposit-account balances. -/
def balance_of (ch : Chart) (es : List JournalEntry) (code : String) : Amount :=
  (((entry_line_pairs es).filter (fun pr =>
      line_code_is ch pr.2 (fun c => c == code))).map
    (fun pr => pr.2.credit - pr.2.debit)).sum

/-- Credit balance of one account code on a database state. -/
def account_code_balance (db : DB) (code : String) : Amount :=
  balance_of db.chart db.entries code

/-- The `sum_acct` helper of the balance-sheet report: `sum(debit - credit)`
over lines whose account code has the given prefix, optionally restricted by
the entry's client-fund flag (`exclude_client_fund` tri-state). -/
def sum_acct (db : DB) (pre : String) (exclude_client_fund : Option Bool) :
    Amount :=
  (((entry_line_pairs db.entries).filter (fun pr =>
      line_code_is db.chart pr.2 (fun c => code_like pre c) &&
      (match exclude_client_fund with
       | some true => pr.1.is_client_fund == false
       | some false => pr.1.is_client_fund == true
       | none => true))).map
    (fun pr => pr.2.debit - pr.2.credit)).sum

/-- Balance sheet, assets row: `sum_acct('A', exclude_client_fund=True)`. -/
def balance_sheet_assets (db : DB) : Amount :=
  sum_acct db "A" (some true)

/-- Balance sheet, total liabilities including client funds:
`-sum_acct('L', exclude_client_fund=None)`. -/
def balance_sheet_liabilities_total (db : DB) : Amount :=
  -(sum_acct db "L" none)

/-- Balance sheet, client deposits: negated `sum(debit - credit)` over
`L200%` accounts across all entries (no client-fund filter). -/
def balance_sheet_client_deposits (db : DB) : Amount :=
  -((((entry_line_pairs db.entries).filter (fun pr =>
      line_code_is db.chart pr.2 (fun c => code_like "L200" c))).map
    (fun pr => pr.2.debit - pr.2.credit)).sum)

/-- Balance sheet, other liabilities:
`max(0.0, liabilities_total - client_deposits)`. -/
def balance_sheet_other_liabilities (db : DB) : Amount :=
  max 0 (balance_sheet_liabilities_total db - balance_sheet_client_deposits db)

/-- Balance sheet, equity:
`assets - (client_deposits + other_liabilities)`. -/
def balance_sheet_equity (db : DB) : Amount :=
  balance_sheet_assets db -
    (balance_sheet_client_deposits db + balance_sheet_other_liabilities db)

/-- One displayed row of the vehicle statement of account. -/
structure StatementRow where
  date : Nat
  description : String
  account_code : String
  account_name : String
  debit : Amount
  credit : Amount
  balance : Amount
deriving Repr, DecidableEq

/-- The ORDER BY key of the vehicle-statement query:
`entry_date asc, entry id asc` (line id order is the within-entry list
order, since line ids are assigned in insertion order). -/
def entry_le (a b : JournalEntry) : Bool :=
  decide (a.entry_date < b.entry_date) ||
    (decide (a.entry_date = b.entry_date) && decide (a.id ≤ b.id))

/-- The row set of the vehicle-statement query: lines of entries linked to
the vehicle, inner-joined to their accounts, ordered by
(entry_date, entry id, line id). -/
def vehicle_rows (db : DB) (vehicle_id : Nat) :
    List (JournalEntry × JournalLine × Account) :=
  ((db.entries.filter (fun e => e.vehicle_id == some vehicle_id)).mergeSort
      entry_le).flatMap
    (fun e => e.lines.filterMap (fun l =>
      (line_account db.chart l).map (fun a => (e, l, a))))

/-- The running-balance loop of `vehicle_statement`: cumulative
`debit - credit`. -/
def build_statement (running : Amount) :
    List (JournalEntry × JournalLine × Account) → List StatementRow
  | [] => []
  | r :: rest =>
      let bal := running + (r.2.1.debit - r.2.1.credit)
      { date := r.1.entry_date, description := r.1.description,
        account_code := r.2.2.code, account_name := r.2.2.name,
        debit := r.2.1.debit, credit := r.2.1.credit, balance := bal } ::
        build_statement bal rest

/-- routes.py `vehicle_statement`: the displayed statement table. -/
def vehicle_statement (db : DB) (vehicle_id : Nat) : List StatementRow :=
  build_statement 0 (vehicle_rows db vehicle_id)

/-- routes.py `vehicle_statement`, `totals['outstanding_balance_omr']`:
the last row's balance, or 0 when the statement is empty. -/
def outstanding_balance (db : DB) (vehicle_id : Nat) : Amount :=
  match (vehicle_statement db vehicle_id).getLast? with
  | some r => r.balance
  | none => 0

/-- Sum of `debit - credit` over all journal lines of entries linked to a
vehicle (no ordering, no join) — the reference value the statement's final
balance is claimed to equal. -/
def vehicle_lines_total (db : DB) (vehicle_id : Nat) : Amount :=
  (((db.entries.filter (fun e => e.vehicle_id == some vehicle_id)).flatMap
      (fun e => e.lines)).map (fun l => l.debit - l.credit)).sum

/-- Digit test of the normalizer's cleaning loop. The source uses Python
`str.isdigit()`; this model covers the digit alphabets the normalizer
handles: ASCII `0-9`, Arabic-Indic `U+0660-0669`, and Eastern Arabic-Indic
`U+06F0-06F9` (both Arabic ranges are already transliterated to ASCII by the
translation table before the cleaning loop runs). -/
def is_py_digit (c : Char) : Bool :=
  c.isDigit ||
    (decide (0x660 ≤ c.toNat) && decide (c.toNat ≤ 0x669)) ||
    (decide (0x6F0 ≤ c.toNat) && decide (c.toNat ≤ 0x6F9))

/-- The `str.maketrans` table of `_normalize_number_string` as a lookup
list: Arabic-Indic and Eastern Arabic-Indic digits to ASCII, the Arabic
decimal separator to `.`, and the Arabic thousands separator, Arabic comma,
and no-break space deleted (`none`). -/
def translate_pairs : List (Char × Option Char) :=
  [('٠', some '0'), ('١', some '1'), ('٢', some '2'), ('٣', some '3'),
   ('٤', some '4'), ('٥', some '5'), ('٦', some '6'), ('٧', some '7'),
   ('٨', some '8'), ('٩', some '9'),
   ('۰', some '0'), ('۱', some '1'), ('۲', some '2'), ('۳', some '3'),
   ('۴', some '4'), ('۵', some '5'), ('۶', some '6'), ('۷', some '7'),
   ('۸', some '8'), ('۹', some '9'),
   ('٫', some '.'), ('٬', none), ('،', none), (Char.ofNat 0xA0, none)]

/-- `str.translate` on one character: apply the table, keep every other
character unchanged. -/
def translate_char (c : Char) : Option Char :=
  match translate_pairs.find? (fun p => p.1 == c) with
  | some p => p.2
  | none => some c

/-- The standard-comma handling of `_normalize_number_string`: a single
comma with no dot and 1-3 characters after it becomes a decimal point;
otherwise commas are removed. -/
def comma_step (s : List Char) : List Char :=
  if s.contains ',' then
    if decide (¬ s.contains '.') && s.count ',' == 1 then
      let left := s.takeWhile (fun c => ¬ c = ',')
      let right := (s.dropWhile (fun c => ¬ c = ',')).tail
      if decide (1 ≤ right.length) && decide (right.length ≤ 3) then
        left ++ '.' :: right
      else s.filter (fun c => ¬ c = ',')
    else s.filter (fun c => ¬ c = ',')
  else s

/-- Python `str.strip()` on a character list (whitespace restricted to the
ASCII whitespace `Char.isWhitespace` knows; the no-break space Python would
also strip is deleted by the translation table anyway). -/
def py_strip (cs : List Char) : List Char :=
  ((cs.dropWhile Char.isWhitespace).reverse.dropWhile Char.isWhitespace).reverse

/-- routes.py `_normalize_number_string`: `None` and all-whitespace inputs
become `"0"`; otherwise transliterate, resolve commas, drop spaces, keep
only digits / dots / minus signs, and map the degenerate leftovers
`"" "-" "." "-."` to `"0"`. (Python `str(value)` on an arbitrary object is
modelled by taking the input as an optional string.) -/
def _normalize_number_string (value : Option String) : String :=
  match value with
  | none => "0"
  | some raw =>
      let s := py_strip raw.toList
      if s.isEmpty then "0"
      else
        let cs := s.filterMap translate_char
        let cs := comma_step cs
        let cs := cs.filter (fun c => ¬ c = ' ')
        let cs := cs.filter (fun c => is_py_digit c || c = '.' || c = '-')
        let t := String.mk cs
        if t = "" || t = "-" || t = "." || t = "-." then "0" else t

/-- Decimal digits to a natural number, most significant first. -/
def digits_to_nat (cs : List Char) : Nat :=
  cs.foldl (fun acc c => 10 * acc + (c.toNat - 48)) 0

/-- Python `float(s)` restricted to the alphabet the normalizer emits
(ASCII digits, `.`, `-`): accepts an optional leading minus followed by
digits with at most one dot and at least one digit; anything else raises
(here: `none`). -/
def py_float_of_string (s : String) : Option Amount :=
  let cs := s.toList
  let neg := cs.head? == some '-'
  let body := if neg then cs.tail else cs
  if body.all (fun c => c.isDigit || c = '.') = false then none
  else if decide (1 < body.count '.') then none
  else if body.countP (fun c => c.isDigit) == 0 then none
  else
    let ip := body.takeWhile (fun c => ¬ c = '.')
    let fp := (body.dropWhile (fun c => ¬ c = '.')).tail
    let q : Amount :=
      (digits_to_nat ip : Amount) +
        (digits_to_nat fp : Amount) / ((10 : Amount) ^ fp.length)
    some (if neg then -q else q)

/-- routes.py `_parse_number_input`: `float(_normalize_number_string(value))`
with every exception coerced to `0.0`. -/
def _parse_number_input (value : Option String) : Amount :=
  match py_float_of_string (_normalize_number_string value) with
  | some q => q
  | none => 0

/-- Whether the raw input contains any digit character (of the alphabets the
normalizer handles); an input with none of these carries no parseable
number. -/
def input_has_digit (value : Option String) : Bool :=
  match value with
  | none => false
  | some s => s.toList.any is_py_digit

/-! Well-formedness invariants of reachable database states. -/

/-- Deposit primary keys are below the id counter (what the autoincrement
primary key guarantees). -/
def deposits_wf (db : DB) : Prop :=
  ∀ d ∈ db.deposits, d.id < db.next_deposit_id

/-- Journal lines reference account ids below the account id counter (what
the foreign key plus autoincrement guarantees). -/
def lines_wf (db : DB) : Prop :=
  ∀ e ∈ db.entries, ∀ l ∈ e.lines, l.account_id < db.chart.next_account_id

/-- Every journal line's account id resolves to an account row (the
`journal_lines.account_id` foreign key). -/
def lines_resolvable (db : DB) : Prop :=
  ∀ e ∈ db.entries, ∀ l ∈ e.lines, (line_account db.chart l).isSome = true

instance (db : DB) : Decidable (deposits_wf db) := by
  unfold deposits_wf; infer_instance

instance (db : DB) : Decidable (lines_wf db) := by
  unfold lines_wf; infer_instance

instance (db : DB) : Decidable (lines_resolvable db) := by
  unfold lines_resolvable; infer_instance

/-- One chart state extends another: accounts are only appended, all new
accounts have fresh ids, and the id counter does not decrease. -/
def chart_extends (ch ch2 : Chart) : Prop :=
  (∃ new, ch2.accounts = ch.accounts ++ new ∧
    ∀ a ∈ new, ch.next_account_id ≤ a.id) ∧
  ch.next_account_id ≤ ch2.next_account_id

lemma chart_extends_refl (ch : Chart) : chart_extends ch ch :=
  ⟨⟨[], by simp, by simp⟩, le_refl _⟩

lemma chart_extends_trans {a b c : Chart} (h1 : chart_extends a b)
    (h2 : chart_extends b c) : chart_extends a c := by
  obtain ⟨⟨n1, hn1, hb1⟩, hle1⟩ := h1
  obtain ⟨⟨n2, hn2, hb2⟩, hle2⟩ := h2
  refine ⟨⟨n1 ++ n2, ?_, ?_⟩, le_trans hle1 hle2⟩
  · rw [hn2, hn1, List.append_assoc]
  · intro x hx
    rcases List.mem_append.mp hx with hx | hx
    · exact hb1 x hx
    · exact le_trans hle1 (hb2 x hx)

/-- Extension only constrains accounts and the id counter, so it transports
along equality of those two fields. -/
lemma chart_extends_of_eq {a b c : Chart} (h : chart_extends a b)
    (hacc : c.accounts = b.accounts)
    (hnext : c.next_account_id = b.next_account_id) : chart_extends a c := by
  obtain ⟨⟨n, hn, hb⟩, hle⟩ := h
  exact ⟨⟨n, by rw [hacc, hn], hb⟩, by rw [hnext]; exact hle⟩

lemma ensure_account_client_structs (ch : Chart) (code nm typ : String)
    (ci vi : Option Nat) :
    (ensure_account ch code nm typ ci vi).client_structs = ch.client_structs := by
  unfold ensure_account; split <;> rfl

lemma ensure_account_vehicle_structs (ch : Chart) (code nm typ : String)
    (ci vi : Option Nat) :
    (ensure_account ch code nm typ ci vi).vehicle_structs = ch.vehicle_structs := by
  unfold ensure_account; split <;> rfl

lemma ensure_account_customers (ch : Chart) (code nm typ : String)
    (ci vi : Option Nat) :
    (ensure_account ch code nm typ ci vi).customers = ch.customers := by
  unfold ensure_account; split <;> rfl

lemma ensure_account_vehicles (ch : Chart) (code nm typ : String)
    (ci vi : Option Nat) :
    (ensure_account ch code nm typ ci vi).vehicles = ch.vehicles := by
  unfold ensure_account; split <;> rfl

lemma ensure_account_auctions (ch : Chart) (code nm typ : String)
    (ci vi : Option Nat) :
    (ensure_account ch code nm typ ci vi).auctions = ch.auctions := by
  unfold ensure_account; split <;> rfl

lemma ensure_account_extends (ch : Chart) (code nm typ : String)
    (ci vi : Option Nat) : chart_extends ch (ensure_account ch code nm typ ci vi) := by
  unfold ensure_account
  split
  · exact chart_extends_refl ch
  · refine ⟨⟨_, rfl, ?_⟩, Nat.le_succ _⟩
    intro a ha
    simp only [List.mem_singleton] at ha
    subst ha
    exact le_refl _

lemma ensure_client_some (ch : Chart) (c : Customer) (cas : ClientAccountStructure)
    (h : ch.client_structs.find? (fun s => s.customer_id == c.id) = some cas) :
    _ensure_client_accounts ch c = (ch, cas) := by
  unfold _ensure_client_accounts
  rw [h]

lemma ensure_client_customers (ch : Chart) (c : Customer) :
    ((_ensure_client_accounts ch c).1).customers = ch.customers := by
  unfold _ensure_client_accounts
  split
  · rfl
  · simp only [ensure_account_customers]

lemma ensure_client_vehicle_structs (ch : Chart) (c : Customer) :
    ((_ensure_client_accounts ch c).1).vehicle_structs = ch.vehicle_structs := by
  unfold _ensure_client_accounts
  split
  · rfl
  · simp only [ensure_account_vehicle_structs]

lemma ensure_client_vehicles (ch : Chart) (c : Customer) :
    ((_ensure_client_accounts ch c).1).vehicles = ch.vehicles := by
  unfold _ensure_client_accounts
  split
  · rfl
  · simp only [ensure_account_vehicles]

lemma ensure_client_auctions (ch : Chart) (c : Customer) :
    ((_ensure_client_accounts ch c).1).auctions = ch.auctions := by
  unfold _ensure_client_accounts
  split
  · rfl
  · simp only [ensure_account_auctions]

lemma ensure_client_extends (ch : Chart) (c : Customer) :
    chart_extends ch (_ensure_client_accounts ch c).1 := by
  unfold _ensure_client_accounts
  split
  · exact chart_extends_refl ch
  · refine chart_extends_of_eq ?_ rfl rfl
    refine chart_extends_trans ?_ (ensure_account_extends _ _ _ _ _ _)
    refine chart_extends_trans ?_ (ensure_account_extends _ _ _ _ _ _)
    refine chart_extends_trans ?_ (ensure_account_extends _ _ _ _ _ _)
    refine chart_extends_trans ?_ (ensure_account_extends _ _ _ _ _ _)
    exact ensure_account_extends _ _ _ _ _ _

lemma ensure_client_cid (ch : Chart) (c : Customer) :
    ((_ensure_client_accounts ch c).2).customer_id = c.id := by
  unfold _ensure_client_accounts
  split
  · next cas h =>
      have hp := List.find?_some h
      simpa using hp
  · rfl

lemma ensure_client_structs_none (ch : Chart) (c : Customer)
    (h : ch.client_structs.find? (fun s => s.customer_id == c.id) = none) :
    ((_ensure_client_accounts ch c).1).client_structs =
      ch.client_structs ++ [(_ensure_client_accounts ch c).2] := by
  unfold _ensure_client_accounts
  rw [h]
  simp only [ensure_account_client_structs]

lemma ensure_vehicle_some (ch : Chart) (v : Vehicle) (vas : VehicleAccountStructure)
    (h : ch.vehicle_structs.find? (fun s => s.vehicle_id == v.id) = some vas) :
    _ensure_vehicle_accounts ch v = (ch, vas) := by
  unfold _ensure_vehicle_accounts
  rw [h]

lemma ensure_vehicle_customers (ch : Chart) (v : Vehicle) :
    ((_ensure_vehicle_accounts ch v).1).customers = ch.customers := by
  unfold _ensure_vehicle_accounts
  split
  · rfl
  · simp only [ensure_account_customers]

lemma ensure_vehicle_client_structs (ch : Chart) (v : Vehicle) :
    ((_ensure_vehicle_accounts ch v).1).client_structs = ch.client_structs := by
  unfold _ensure_vehicle_accounts
  split
  · rfl
  · simp only [ensure_account_client_structs]

lemma ensure_vehicle_vehicles (ch : Chart) (v : Vehicle) :
    ((_ensure_vehicle_accounts ch v).1).vehicles = ch.vehicles := by
  unfold _ensure_vehicle_accounts
  split
  · rfl
  · simp only [ensure_account_vehicles]

lemma ensure_vehicle_auctions (ch : Chart) (v : Vehicle) :
    ((_ensure_vehicle_accounts ch v).1).auctions = ch.auctions := by
  unfold _ensure_vehicle_accounts
  split
  · rfl
  · simp only [ensure_account_auctions]

lemma ensure_vehicle_extends (ch : Chart) (v : Vehicle) :
    chart_extends ch (_ensure_vehicle_accounts ch v).1 := by
  unfold _ensure_vehicle_accounts
  split
  · exact chart_extends_refl ch
  · refine chart_extends_of_eq ?_ rfl rfl
    refine chart_extends_trans ?_ (ensure_account_extends _ _ _ _ _ _)
    refine chart_extends_trans ?_ (ensure_account_extends _ _ _ _ _ _)
    refine chart_extends_trans ?_ (ensure_account_extends _ _ _ _ _ _)
    refine chart_extends_trans ?_ (ensure_account_extends _ _ _ _ _ _)
    refine chart_extends_trans ?_ (ensure_account_extends _ _ _ _ _ _)
    exact ensure_account_extends _ _ _ _ _ _

lemma ensure_vehicle_vid (ch : Chart) (v : Vehicle) :
    ((_ensure_vehicle_accounts ch v).2).vehicle_id = v.id := by
  unfold _ensure_vehicle_accounts
  split
  · next vas h =>
      have hp := List.find?_some h
      simpa using hp
  · rfl

lemma ensure_vehicle_structs_none (ch : Chart) (v : Vehicle)
    (h : ch.vehicle_structs.find? (fun s => s.vehicle_id == v.id) = none) :
    ((_ensure_vehicle_accounts ch v).1).vehicle_structs =
      ch.vehicle_structs ++ [(_ensure_vehicle_accounts ch v).2] := by
  unfold _ensure_vehicle_accounts
  rw [h]
  simp only [ensure_account_vehicle_structs]

lemma find?_append_of_some {α : Type} (p : α → Bool) {l1 : List α} {x : α}
    (h : l1.find? p = some x) (l2 : List α) : (l1 ++ l2).find? p = some x := by
  rw [List.find?_append, h]
  rfl

lemma find?_append_of_none {α : Type} (p : α → Bool) {l1 : List α}
    (h : l1.find? p = none) (l2 : List α) :
    (l1 ++ l2).find? p = l2.find? p := by
  rw [List.find?_append, h]
  rfl

lemma get_client_extends (ch : Chart) (cid : Option Nat) (k d : String) :
    chart_extends ch (_get_client_account_code ch cid k d).1 := by
  unfold _get_client_account_code
  split
  · exact chart_extends_refl ch
  · dsimp only
    split
    · exact chart_extends_refl ch
    · split
      · exact chart_extends_refl ch
      · exact ensure_client_extends _ _

lemma get_client_vehicle_structs (ch : Chart) (cid : Option Nat) (k d : String) :
    ((_get_client_account_code ch cid k d).1).vehicle_structs =
      ch.vehicle_structs := by
  unfold _get_client_account_code
  split
  · rfl
  · dsimp only
    split
    · rfl
    · split
      · rfl
      · exact ensure_client_vehicle_structs _ _

lemma get_client_vehicles (ch : Chart) (cid : Option Nat) (k d : String) :
    ((_get_client_account_code ch cid k d).1).vehicles = ch.vehicles := by
  unfold _get_client_account_code
  split
  · rfl
  · dsimp only
    split
    · rfl
    · split
      · rfl
      · exact ensure_client_vehicles _ _

lemma get_client_customers (ch : Chart) (cid : Option Nat) (k d : String) :
    ((_get_client_account_code ch cid k d).1).customers = ch.customers := by
  unfold _get_client_account_code
  split
  · rfl
  · dsimp only
    split
    · rfl
    · split
      · rfl
      · exact ensure_client_customers _ _

lemma get_client_auctions (ch : Chart) (cid : Option Nat) (k d : String) :
    ((_get_client_account_code ch cid k d).1).auctions = ch.auctions := by
  unfold _get_client_account_code
  split
  · rfl
  · dsimp only
    split
    · rfl
    · split
      · rfl
      · exact ensure_client_auctions _ _

lemma get_vehicle_extends (ch : Chart) (vid : Option Nat) (k d : String) :
    chart_extends ch (_get_vehicle_account_code ch vid k d).1 := by
  unfold _get_vehicle_account_code
  split
  · exact chart_extends_refl ch
  · dsimp only
    split
    · exact chart_extends_refl ch
    · split
      · exact chart_extends_refl ch
      · exact ensure_vehicle_extends _ _

lemma get_vehicle_client_structs (ch : Chart) (vid : Option Nat) (k d : String) :
    ((_get_vehicle_account_code ch vid k d).1).client_structs =
      ch.client_structs := by
  unfold _get_vehicle_account_code
  split
  · rfl
  · dsimp only
    split
    · rfl
    · split
      · rfl
      · exact ensure_vehicle_client_structs _ _

lemma get_vehicle_customers (ch : Chart) (vid : Option Nat) (k d : String) :
    ((_get_vehicle_account_code ch vid k d).1).customers = ch.customers := by
  unfold _get_vehicle_account_code
  split
  · rfl
  · dsimp only
    split
    · rfl
    · split
      · rfl
      · exact ensure_vehicle_customers _ _

lemma get_vehicle_vehicles (ch : Chart) (vid : Option Nat) (k d : String) :
    ((_get_vehicle_account_code ch vid k d).1).vehicles = ch.vehicles := by
  unfold _get_vehicle_account_code
  split
  · rfl
  · dsimp only
    split
    · rfl
    · split
      · rfl
      · exact ensure_vehicle_vehicles _ _

lemma get_vehicle_auctions (ch : Chart) (vid : Option Nat) (k d : String) :
    ((_get_vehicle_account_code ch vid k d).1).auctions = ch.auctions := by
  unfold _get_vehicle_account_code
  split
  · rfl
  · dsimp only
    split
    · rfl
    · split
      · rfl
      · exact ensure_vehicle_auctions _ _

/-- Exhaustive description of the four branches of `_get_client_account_code`. -/
lemma get_client_code_cases (ch : Chart) (cid : Option Nat) (k d : String) :
    (idTruthy cid = false ∧ _get_client_account_code ch cid k d = (ch, d)) ∨
    (idTruthy cid = true ∧
      ∃ cas, ch.client_structs.find? (fun s => s.customer_id == cid.getD 0) = some cas ∧
        _get_client_account_code ch cid k d = (ch, client_kind_code cas k d)) ∨
    (idTruthy cid = true ∧
      ch.client_structs.find? (fun s => s.customer_id == cid.getD 0) = none ∧
      ch.customers.find? (fun c => c.id == cid.getD 0) = none ∧
      _get_client_account_code ch cid k d = (ch, d)) ∨
    (idTruthy cid = true ∧
      ch.client_structs.find? (fun s => s.customer_id == cid.getD 0) = none ∧
      ∃ cust, ch.customers.find? (fun c => c.id == cid.getD 0) = some cust ∧
        _get_client_account_code ch cid k d =
          ((_ensure_client_accounts ch cust).1,
            client_kind_code (_ensure_client_accounts ch cust).2 k d)) := by
  by_cases htr : idTruthy cid = false
  · left
    refine ⟨htr, ?_⟩
    unfold _get_client_account_code
    rw [if_pos htr]
  · right
    have htr2 : idTruthy cid = true := by
      cases h : idTruthy cid
      · exact absurd h htr
      · rfl
    cases hf : ch.client_structs.find? (fun s => s.customer_id == cid.getD 0) with
    | some cas =>
        left
        refine ⟨htr2, cas, rfl, ?_⟩
        unfold _get_client_account_code
        rw [if_neg htr]
        dsimp only
        rw [hf]
    | none =>
        right
        cases hg : ch.customers.find? (fun c => c.id == cid.getD 0) with
        | none =>
            left
            refine ⟨htr2, rfl, rfl, ?_⟩
            unfold _get_client_account_code
            rw [if_neg htr]
            dsimp only
            rw [hf, hg]
        | some cust =>
            right
            refine ⟨htr2, rfl, cust, rfl, ?_⟩
            unfold _get_client_account_code
            rw [if_neg htr]
            dsimp only
            rw [hf, hg]

/-- Exhaustive description of the four branches of `_get_vehicle_account_code`. -/
lemma get_vehicle_code_cases (ch : Chart) (vid : Option Nat) (k d : String) :
    (idTruthy vid = false ∧ _get_vehicle_account_code ch vid k d = (ch, d)) ∨
    (idTruthy vid = true ∧
      ∃ vas, ch.vehicle_structs.find? (fun s => s.vehicle_id == vid.getD 0) = some vas ∧
        _get_vehicle_account_code ch vid k d = (ch, vehicle_kind_code vas k d)) ∨
    (idTruthy vid = true ∧
      ch.vehicle_structs.find? (fun s => s.vehicle_id == vid.getD 0) = none ∧
      ch.vehicles.find? (fun v => v.id == vid.getD 0) = none ∧
      _get_vehicle_account_code ch vid k d = (ch, d)) ∨
    (idTruthy vid = true ∧
      ch.vehicle_structs.find? (fun s => s.vehicle_id == vid.getD 0) = none ∧
      ∃ veh, ch.vehicles.find? (fun v => v.id == vid.getD 0) = some veh ∧
        _get_vehicle_account_code ch vid k d =
          ((_ensure_vehicle_accounts ch veh).1,
            vehicle_kind_code (_ensure_vehicle_accounts ch veh).2 k d)) := by
  by_cases htr : idTruthy vid = false
  · left
    refine ⟨htr, ?_⟩
    unfold _get_vehicle_account_code
    rw [if_pos htr]
  · right
    have htr2 : idTruthy vid = true := by
      cases h : idTruthy vid
      · exact absurd h htr
      · rfl
    cases hf : ch.vehicle_structs.find? (fun s => s.vehicle_id == vid.getD 0) with
    | some vas =>
        left
        refine ⟨htr2, vas, rfl, ?_⟩
        unfold _get_vehicle_account_code
        rw [if_neg htr]
        dsimp only
        rw [hf]
    | none =>
        right
        cases hg : ch.vehicles.find? (fun v => v.id == vid.getD 0) with
        | none =>
            left
            refine ⟨htr2, rfl, rfl, ?_⟩
            unfold _get_vehicle_account_code
            rw [if_neg htr]
            dsimp only
            rw [hf, hg]
        | some veh =>
            right
            refine ⟨htr2, rfl, veh, rfl, ?_⟩
            unfold _get_vehicle_account_code
            rw [if_neg htr]
            dsimp only
            rw [hf, hg]

/-- A second client-code resolution, run from any chart whose client-mapping
and customer tables agree with the outcome of a first resolution, returns
the same code and leaves the chart untouched. -/
lemma get_client_code_stable (ch ch2 : Chart) (cid : Option Nat) (k d : String)
    (hs : ch2.client_structs = ((_get_client_account_code ch cid k d).1).client_structs)
    (hc : ch2.customers = ((_get_client_account_code ch cid k d).1).customers) :
    _get_client_account_code ch2 cid k d =
      (ch2, (_get_client_account_code ch cid k d).2) := by
  rcases get_client_code_cases ch cid k d with
    ⟨htr, hres⟩ | ⟨htr, cas, hf, hres⟩ | ⟨htr, hf, hg, hres⟩ |
    ⟨htr, hf, cust, hg, hres⟩
  · rw [hres]
    unfold _get_client_account_code
    rw [if_pos htr]
  · have htr2 : ¬ idTruthy cid = false := by simp [htr]
    rw [hres] at hs hc ⊢
    dsimp only at hs hc ⊢
    unfold _get_client_account_code
    rw [if_neg htr2]
    dsimp only
    rw [hs, hf]
  · have htr2 : ¬ idTruthy cid = false := by simp [htr]
    rw [hres] at hs hc ⊢
    dsimp only at hs hc ⊢
    unfold _get_client_account_code
    rw [if_neg htr2]
    dsimp only
    rw [hs, hf, hc, hg]
  · have htr2 : ¬ idTruthy cid = false := by simp [htr]
    have hcid : cust.id = cid.getD 0 := by
      have hp := List.find?_some hg
      simpa using hp
    have hnone : ch.client_structs.find?
        (fun s => s.customer_id == cust.id) = none := by
      rw [hcid]; exact hf
    rw [hres] at hs hc ⊢
    dsimp only at hs hc ⊢
    rw [ensure_client_structs_none ch cust hnone] at hs
    rw [ensure_client_customers ch cust] at hc
    unfold _get_client_account_code
    rw [if_neg htr2]
    dsimp only
    rw [hs, find?_append_of_none _ hf]
    have hpred : (((_ensure_client_accounts ch cust).2).customer_id ==
        cid.getD 0) = true := by
      rw [ensure_client_cid ch cust, hcid]
      exact beq_self_eq_true _
    simp only [List.find?_cons, hpred]

/-- A second vehicle-code resolution, run from any chart whose
vehicle-mapping and vehicle tables agree with the outcome of a first
resolution, returns the same code and leaves the chart untouched. -/
lemma get_vehicle_code_stable (ch ch2 : Chart) (vid : Option Nat) (k d : String)
    (hs : ch2.vehicle_structs = ((_get_vehicle_account_code ch vid k d).1).vehicle_structs)
    (hv : ch2.vehicles = ((_get_vehicle_account_code ch vid k d).1).vehicles) :
    _get_vehicle_account_code ch2 vid k d =
      (ch2, (_get_vehicle_account_code ch vid k d).2) := by
  rcases get_vehicle_code_cases ch vid k d with
    ⟨htr, hres⟩ | ⟨htr, vas, hf, hres⟩ | ⟨htr, hf, hg, hres⟩ |
    ⟨htr, hf, veh, hg, hres⟩
  · rw [hres]
    unfold _get_vehicle_account_code
    rw [if_pos htr]
  · have htr2 : ¬ idTruthy vid = false := by simp [htr]
    rw [hres] at hs hv ⊢
    dsimp only at hs hv ⊢
    unfold _get_vehicle_account_code
    rw [if_neg htr2]
    dsimp only
    rw [hs, hf]
  · have htr2 : ¬ idTruthy vid = false := by simp [htr]
    rw [hres] at hs hv ⊢
    dsimp only at hs hv ⊢
    unfold _get_vehicle_account_code
    rw [if_neg htr2]
    dsimp only
    rw [hs, hf, hv, hg]
  · have htr2 : ¬ idTruthy vid = false := by simp [htr]
    have hvid : veh.id = vid.getD 0 := by
      have hp := List.find?_some hg
      simpa using hp
    have hnone : ch.vehicle_structs.find?
        (fun s => s.vehicle_id == veh.id) = none := by
      rw [hvid]; exact hf
    rw [hres] at hs hv ⊢
    dsimp only at hs hv ⊢
    rw [ensure_vehicle_structs_none ch veh hnone] at hs
    unfold _get_vehicle_account_code
    rw [if_neg htr2]
    dsimp only
    rw [hs, find?_append_of_none _ hf]
    have hpred : (((_ensure_vehicle_accounts ch veh).2).vehicle_id ==
        vid.getD 0) = true := by
      rw [ensure_vehicle_vid ch veh, hvid]
      exact beq_self_eq_true _
    simp only [List.find?_cons, hpred]

/-- Provisioning a client sub-ledger a second time is a no-op returning the
mapping produced by the first call. -/
lemma ensure_client_idem (ch : Chart) (c : Customer) :
    _ensure_client_accounts (_ensure_client_accounts ch c).1 c =
      _ensure_client_accounts ch c := by
  cases hf : ch.client_structs.find? (fun s => s.customer_id == c.id) with
  | some cas =>
      rw [ensure_client_some ch c cas hf]
      exact ensure_client_some ch c cas hf
  | none =>
      have hs := ensure_client_structs_none ch c hf
      have hfind : ((_ensure_client_accounts ch c).1).client_structs.find?
          (fun s => s.customer_id == c.id) =
          some (_ensure_client_accounts ch c).2 := by
        rw [hs, find?_append_of_none _ hf]
        have hpred : (((_ensure_client_accounts ch c).2).customer_id == c.id)
            = true := by
          rw [ensure_client_cid ch c]
          exact beq_self_eq_true _
        simp only [List.find?_cons, hpred]
      rw [ensure_client_some _ c _ hfind]

/-- Provisioning a vehicle sub-ledger a second time is a no-op returning the
mapping produced by the first call. -/
lemma ensure_vehicle_idem (ch : Chart) (v : Vehicle) :
    _ensure_vehicle_accounts (_ensure_vehicle_accounts ch v).1 v =
      _ensure_vehicle_accounts ch v := by
  cases hf : ch.vehicle_structs.find? (fun s => s.vehicle_id == v.id) with
  | some vas =>
      rw [ensure_vehicle_some ch v vas hf]
      exact ensure_vehicle_some ch v vas hf
  | none =>
      have hs := ensure_vehicle_structs_none ch v hf
      have hfind : ((_ensure_vehicle_accounts ch v).1).vehicle_structs.find?
          (fun s => s.vehicle_id == v.id) =
          some (_ensure_vehicle_accounts ch v).2 := by
        rw [hs, find?_append_of_none _ hf]
        have hpred : (((_ensure_vehicle_accounts ch v).2).vehicle_id == v.id)
            = true := by
          rw [ensure_vehicle_vid ch v]
          exact beq_self_eq_true _
        simp only [List.find?_cons, hpred]
      rw [ensure_vehicle_some _ v _ hfind]

/-- Account lookup by id is unchanged by a chart extension, for lines whose
account id is below the extended-from id counter. -/
lemma line_account_extends {ch ch2 : Chart} (h : chart_extends ch ch2)
    {l : JournalLine} (hb : l.account_id < ch.next_account_id) :
    line_account ch2 l = line_account ch l := by
  obtain ⟨⟨new, hn, hfresh⟩, _⟩ := h
  unfold line_account
  rw [hn, List.find?_append]
  have hnone : new.find? (fun a => a.id == l.account_id) = none := by
    apply List.find?_eq_none.mpr
    intro a ha
    have hid := hfresh a ha
    simp only [beq_iff_eq]
    omega
  rw [hnone]
  cases ch.accounts.find? (fun a => a.id == l.account_id) <;> rfl

lemma entry_line_pairs_append (es fs : List JournalEntry) :
    entry_line_pairs (es ++ fs) = entry_line_pairs es ++ entry_line_pairs fs := by
  unfold entry_line_pairs
  exact List.flatMap_append es fs _

lemma mem_entry_line_pairs {es : List JournalEntry}
    {pr : JournalEntry × JournalLine} (h : pr ∈ entry_line_pairs es) :
    pr.1 ∈ es ∧ pr.2 ∈ pr.1.lines := by
  unfold entry_line_pairs at h
  rw [List.mem_flatMap] at h
  obtain ⟨e, he, hm⟩ := h
  rw [List.mem_map] at hm
  obtain ⟨l, hl, heq⟩ := hm
  subst heq
  exact ⟨he, hl⟩

lemma revenue_of_append (ch : Chart) (es fs : List JournalEntry)
    (start stop : Nat) :
    revenue_of ch (es ++ fs) start stop =
      revenue_of ch es start stop + revenue_of ch fs start stop := by
  unfold revenue_of
  rw [entry_line_pairs_append, List.filter_append, List.map_append,
    List.sum_append]

lemma balance_of_append (ch : Chart) (es fs : List JournalEntry)
    (code : String) :
    balance_of ch (es ++ fs) code =
      balance_of ch es code + balance_of ch fs code := by
  unfold balance_of
  rw [entry_line_pairs_append, List.filter_append, List.map_append,
    List.sum_append]

lemma line_code_is_congr {ch ch2 : Chart} {l : JournalLine}
    (h : line_account ch2 l = line_account ch l) (p : String → Bool) :
    line_code_is ch2 l p = line_code_is ch l p := by
  unfold line_code_is
  rw [h]

/-- The revenue aggregation only inspects accounts through `line_account`,
so it is stable under any chart change that preserves those lookups. -/
lemma revenue_of_congr {ch ch2 : Chart} {es : List JournalEntry}
    (h : ∀ e ∈ es, ∀ l ∈ e.lines, line_account ch2 l = line_account ch l)
    (start stop : Nat) :
    revenue_of ch2 es start stop = revenue_of ch es start stop := by
  unfold revenue_of
  have hfe : List.filter (fun pr =>
      decide (start ≤ pr.1.entry_date) && decide (pr.1.entry_date < stop) &&
      line_code_is ch2 pr.2 (fun c => code_like "R" c) &&
      (pr.1.is_client_fund == false)) (entry_line_pairs es) =
      List.filter (fun pr =>
      decide (start ≤ pr.1.entry_date) && decide (pr.1.entry_date < stop) &&
      line_code_is ch pr.2 (fun c => code_like "R" c) &&
      (pr.1.is_client_fund == false)) (entry_line_pairs es) := by
    apply List.filter_congr
    intro pr hpr
    obtain ⟨h1, h2⟩ := mem_entry_line_pairs hpr
    rw [line_code_is_congr (h pr.1 h1 pr.2 h2)]
  rw [hfe]

/-- The per-code balance aggregation is likewise stable under chart changes
preserving account lookups. -/
lemma balance_of_congr {ch ch2 : Chart} {es : List JournalEntry}
    (h : ∀ e ∈ es, ∀ l ∈ e.lines, line_account ch2 l = line_account ch l)
    (code : String) :
    balance_of ch2 es code = balance_of ch es code := by
  unfold balance_of
  have hfe : List.filter (fun pr =>
      line_code_is ch2 pr.2 (fun c => c == code)) (entry_line_pairs es) =
      List.filter (fun pr =>
      line_code_is ch pr.2 (fun c => c == code)) (entry_line_pairs es) := by
    apply List.filter_congr
    intro pr hpr
    obtain ⟨h1, h2⟩ := mem_entry_line_pairs hpr
    rw [line_code_is_congr (h pr.1 h1 pr.2 h2)]
  rw [hfe]

/-- A client-fund entry contributes nothing to the revenue aggregation. -/
lemma revenue_of_single_fund (ch : Chart) (e : JournalEntry)
    (hf : e.is_client_fund = true) (start stop : Nat) :
    revenue_of ch [e] start stop = 0 := by
  unfold revenue_of
  have hnil : List.filter (fun pr =>
      decide (start ≤ pr.1.entry_date) && decide (pr.1.entry_date < stop) &&
      line_code_is ch pr.2 (fun c => code_like "R" c) &&
      (pr.1.is_client_fund == false)) (entry_line_pairs [e]) = [] := by
    apply List.filter_eq_nil_iff.mpr
    intro pr hpr
    obtain ⟨h1, _⟩ := mem_entry_line_pairs hpr
    simp only [List.mem_singleton] at h1
    subst h1
    simp [hf]
  rw [hnil]
  rfl

lemma sum_filter_map {α : Type} (p : α → Bool) (v : α → Amount) :
    ∀ l : List α, ((l.filter p).map v).sum =
      (l.map (fun x => if p x then v x else 0)).sum := by
  intro l
  induction l with
  | nil => rfl
  | cons x xs ih =>
      cases hx : p x with
      | true => simp [List.filter_cons, hx, ih]
      | false => simp [List.filter_cons, hx, ih]

/-- Per-code balance of a single entry as a sum of guarded line values. -/
lemma balance_of_single (ch : Chart) (e : JournalEntry) (code : String) :
    balance_of ch [e] code =
      (e.lines.map (fun l =>
        if line_code_is ch l (fun c => c == code)
        then l.credit - l.debit else 0)).sum := by
  unfold balance_of
  have hp : entry_line_pairs [e] = e.lines.map (fun l => (e, l)) := by
    simp [entry_line_pairs]
  rw [hp, List.filter_map, List.map_map]
  rw [sum_filter_map]
  simp [Function.comp]

/-- Refund behaviour when no deposit row matches the id: `False`, no state
change. -/
lemma refund_none (db : DB) (now did : Nat)
    (hfind : db.deposits.find? (fun d => d.id == did) = none) :
    refund_customer_deposit db now did = (db, false) := by
  unfold refund_customer_deposit
  rw [hfind]

/-- Refund behaviour when the deposit exists but is not `held`: `False`, no
state change. -/
lemma refund_not_held (db : DB) (now did : Nat) (dep : CustomerDeposit)
    (hfind : db.deposits.find? (fun d => d.id == did) = some dep)
    (hst : ¬ dep.status = "held") :
    refund_customer_deposit db now did = (db, false) := by
  unfold refund_customer_deposit
  rw [hfind]
  simp [hst]

/-- Refund behaviour when the deposit exists and is `held`: mark refunded,
resolve the deposit code, post the reversal, return `True`. -/
lemma refund_found (db : DB) (now did : Nat) (dep : CustomerDeposit)
    (hfind : db.deposits.find? (fun d => d.id == did) = some dep)
    (hheld : dep.status = "held") :
    refund_customer_deposit db now did =
      (let upd := fun (d : CustomerDeposit) =>
        if d.id == did
        then { d with status := "refunded", refunded_at := some now }
        else d
       let db1 : DB := { db with deposits := db.deposits.map upd }
       let rc := _get_client_account_code db1.chart dep.customer_id
         "deposit" "L200"
       let rv := _get_vehicle_account_code rc.1 dep.vehicle_id "deposit" rc.2
       let db2 : DB := { db1 with chart := rv.1 }
       ((_post_journal db2 now "Customer deposit refunded" dep.reference
          [(rv.2, dep.amount_omr, 0), ("A100", 0, dep.amount_omr)]
          dep.customer_id dep.vehicle_id dep.auction_id none true "approved"
          none).1, true)) := by
  unfold refund_customer_deposit
  rw [hfind]
  dsimp only
  rw [if_neg (by simp [hheld])]

lemma post_journal_fst_entries (db : DB) (now : Nat) (d : String)
    (r : Option String) (ls : List (String × Amount × Amount))
    (ci vi ai ii : Option Nat) (f : Bool) (s : String) (n : Option String) :
    ((_post_journal db now d r ls ci vi ai ii f s n).1).entries =
      db.entries ++ [(_post_journal db now d r ls ci vi ai ii f s n).2] := rfl

lemma post_journal_fst_chart (db : DB) (now : Nat) (d : String)
    (r : Option String) (ls : List (String × Amount × Amount))
    (ci vi ai ii : Option Nat) (f : Bool) (s : String) (n : Option String) :
    ((_post_journal db now d r ls ci vi ai ii f s n).1).chart = db.chart := rfl

lemma post_journal_snd_fund (db : DB) (now : Nat) (d : String)
    (r : Option String) (ls : List (String × Amount × Amount))
    (ci vi ai ii : Option Nat) (f : Bool) (s : String) (n : Option String) :
    ((_post_journal db now d r ls ci vi ai ii f s n).2).is_client_fund = f := rfl

lemma post_journal_snd_lines (db : DB) (now : Nat) (d : String)
    (r : Option String) (ls : List (String × Amount × Amount))
    (ci vi ai ii : Option Nat) (f : Bool) (s : String) (n : Option String) :
    ((_post_journal db now d r ls ci vi ai ii f s n).2).lines =
      post_lines db.chart ls := rfl

/-- The reversal posting exactly undoes the receipt posting on every
account-code balance: two entries whose line specs swap the debit and credit
legs over the same two codes, resolved against the same chart, cancel. -/
lemma post_lines_cancel (ch : Chart) (amt : Amount) (cA cB code : String)
    (e1 e2 : JournalEntry)
    (h1 : e1.lines = post_lines ch [(cA, amt, 0), (cB, 0, amt)])
    (h2 : e2.lines = post_lines ch [(cB, amt, 0), (cA, 0, amt)]) :
    balance_of ch [e1] code + balance_of ch [e2] code = 0 := by
  rw [balance_of_single, balance_of_single, h1, h2]
  unfold post_lines
  cases hA : _get_account ch cA <;> cases hB : _get_account ch cB <;>
    simp only [List.filterMap, hA, hB] <;> dsimp [line_code_is, line_account] <;>
    (try split_ifs) <;> ring

/-- Executing `record_customer_deposit` and then `refund_customer_deposit`
on the created deposit, from any state whose deposit ids respect the id
counter: the refund succeeds, the chart only extends, both new entries are
client-fund flagged, and their line specs swap the same two resolved codes
against the same final chart. -/
lemma round_trip_destruct (db : DB) (now1 now2 cid : Nat) (amt : Amount)
    (m ref : Option String) (vid aid : Option Nat) (hdep : deposits_wf db) :
    ∃ (chf : Chart) (c : String) (e1 e2 : JournalEntry),
      chart_extends db.chart chf ∧
      e1.is_client_fund = true ∧
      e2.is_client_fund = true ∧
      e1.lines = post_lines chf [("A100", amt, 0), (c, 0, amt)] ∧
      e2.lines = post_lines chf [(c, amt, 0), ("A100", 0, amt)] ∧
      (refund_customer_deposit
        (record_customer_deposit db now1 cid amt m ref vid aid).1 now2
        (record_customer_deposit db now1 cid amt m ref vid aid).2.id).2 = true ∧
      ((refund_customer_deposit
        (record_customer_deposit db now1 cid amt m ref vid aid).1 now2
        (record_customer_deposit db now1 cid amt m ref vid aid).2.id).1).chart
        = chf ∧
      ((refund_customer_deposit
        (record_customer_deposit db now1 cid amt m ref vid aid).1 now2
        (record_customer_deposit db now1 cid amt m ref vid aid).2.id).1).entries
        = (db.entries ++ [e1]) ++ [e2] := by
  set R := record_customer_deposit db now1 cid amt m ref vid aid with hR
  set rc := _get_client_account_code db.chart (some cid) "deposit" "L200"
    with hrc
  set rv := _get_vehicle_account_code rc.1 vid "deposit" rc.2 with hrv
  have hRdeps : R.1.deposits = db.deposits ++ [R.2] := rfl
  have hRchart : R.1.chart = rv.1 := rfl
  have hRid : R.2.id = db.next_deposit_id := rfl
  have hheld : R.2.status = "held" := rfl
  have hcust : R.2.customer_id = some cid := rfl
  have hvid2 : R.2.vehicle_id = vid := rfl
  have haid2 : R.2.auction_id = aid := rfl
  have hamt : R.2.amount_omr = amt := rfl
  have href : R.2.reference = ref := rfl
  have hext : chart_extends db.chart rv.1 := by
    rw [hrv]
    exact chart_extends_trans (by rw [hrc]; exact get_client_extends _ _ _ _)
      (get_vehicle_extends _ _ _ _)
  have hfind : R.1.deposits.find? (fun d => d.id == R.2.id) = some R.2 := by
    rw [hRdeps]
    rw [find?_append_of_none]
    · simp only [List.find?_cons, beq_self_eq_true]
    · apply List.find?_eq_none.mpr
      intro d hd
      have hlt := hdep d hd
      simp only [beq_iff_eq, hRid]
      omega
  have hstab1 : _get_client_account_code rv.1 (some cid) "deposit" "L200" =
      (rv.1, rc.2) := by
    have hs : rv.1.client_structs =
        ((_get_client_account_code db.chart (some cid) "deposit" "L200").1).client_structs := by
      rw [← hrc, hrv]
      exact get_vehicle_client_structs _ _ _ _
    have hc : rv.1.customers =
        ((_get_client_account_code db.chart (some cid) "deposit" "L200").1).customers := by
      rw [← hrc, hrv]
      exact get_vehicle_customers _ _ _ _
    have h := get_client_code_stable db.chart rv.1 (some cid) "deposit" "L200"
      hs hc
    rw [h, ← hrc]
  have hstab2 : _get_vehicle_account_code rv.1 vid "deposit" rc.2 =
      (rv.1, rv.2) := by
    have h := get_vehicle_code_stable rc.1 rv.1 vid "deposit" rc.2
      (by rw [hrv]) (by rw [hrv])
    rw [h, ← hrv]
  have hREF : refund_customer_deposit R.1 now2 R.2.id =
      ((_post_journal
          { R.1 with
            deposits := R.1.deposits.map (fun (d : CustomerDeposit) =>
              if d.id == R.2.id
              then { d with status := "refunded", refunded_at := some now2 }
              else d),
            chart := rv.1 }
          now2 "Customer deposit refunded" ref
          [(rv.2, amt, 0), ("A100", 0, amt)]
          (some cid) vid aid none true "approved" none).1, true) := by
    rw [refund_found R.1 now2 R.2.id R.2 hfind hheld]
    dsimp only
    rw [hcust, hvid2, haid2, hamt, href]
    rw [show R.1.chart = rv.1 from hRchart]
    rw [hstab1]
    dsimp only
    rw [hstab2]
  refine ⟨rv.1, rv.2,
    (_post_journal
      { db with
        deposits := db.deposits ++ [R.2],
        next_deposit_id := db.next_deposit_id + 1,
        chart := rv.1 }
      now1 "Customer deposit received" ref
      [("A100", amt, 0), (rv.2, 0, amt)]
      (some cid) vid aid none true "approved" none).2,
    (_post_journal
      { R.1 with
        deposits := R.1.deposits.map (fun (d : CustomerDeposit) =>
          if d.id == R.2.id
          then { d with status := "refunded", refunded_at := some now2 }
          else d),
        chart := rv.1 }
      now2 "Customer deposit refunded" ref
      [(rv.2, amt, 0), ("A100", 0, amt)]
      (some cid) vid aid none true "approved" none).2,
    hext, rfl, rfl, rfl, rfl, ?_, ?_, ?_⟩
  · rw [hREF]
  · rw [hREF]
    rfl
  · rw [hREF]
    rfl

/-- The books-lock date a posting consults: `Setting.books_locked_until` of
the first settings row, when both exist. -/
def lock_date (db : DB) : Option Nat :=
  match db.settings with
  | none => none
  | some st => st.books_locked_until

lemma lock_adjusted_status_eq (db : DB) (now : Nat) (status : String) :
    lock_adjusted_status db now status =
      match lock_date db with
      | some lock => if now ≤ lock then "pending" else status
      | none => status := by
  unfold lock_adjusted_status lock_date
  cases db.settings with
  | none => rfl
  | some st =>
      dsimp only
      cases st.books_locked_until <;> rfl

lemma post_journal_snd_status (db : DB) (now : Nat) (d : String)
    (r : Option String) (ls : List (String × Amount × Amount))
    (ci vi ai ii : Option Nat) (f : Bool) (s : String) (n : Option String) :
    ((_post_journal db now d r ls ci vi ai ii f s n).2).status =
      pyOrStr (lock_adjusted_status db now s) "approved" := rfl

lemma post_journal_snd_date (db : DB) (now : Nat) (d : String)
    (r : Option String) (ls : List (String × Amount × Amount))
    (ci vi ai ii : Option Nat) (f : Bool) (s : String) (n : Option String) :
    ((_post_journal db now d r ls ci vi ai ii f s n).2).entry_date = now := rfl

lemma post_journal_fst_deposits (db : DB) (now : Nat) (d : String)
    (r : Option String) (ls : List (String × Amount × Amount))
    (ci vi ai ii : Option Nat) (f : Bool) (s : String) (n : Option String) :
    ((_post_journal db now d r ls ci vi ai ii f s n).1).deposits =
      db.deposits := rfl

lemma post_lines_length (ch : Chart) (ls : List (String × Amount × Amount)) :
    (post_lines ch ls).length =
      ls.countP (fun t => (_get_account ch t.1).isSome) := by
  unfold post_lines
  induction ls with
  | nil => rfl
  | cons t ts ih =>
      cases ht : _get_account ch t.1 <;>
        simp [List.filterMap_cons, ht, ih, List.countP_cons]

lemma post_lines_amounts (ch : Chart) (ls : List (String × Amount × Amount)) :
    (post_lines ch ls).map (fun l => (l.debit, l.credit)) =
      (ls.filter (fun t => (_get_account ch t.1).isSome)).map
        (fun t => (t.2.1, t.2.2)) := by
  unfold post_lines
  induction ls with
  | nil => rfl
  | cons t ts ih =>
      cases ht : _get_account ch t.1 <;>
        simp [List.filterMap_cons, List.filter_cons, ht, ih]

lemma find?_map_comm {α : Type} (f : α → α) (p : α → Bool)
    (hpf : ∀ x, p (f x) = p x) :
    ∀ l : List α, (l.map f).find? p = (l.find? p).map f := by
  intro l
  induction l with
  | nil => rfl
  | cons x xs ih =>
      simp only [List.map_cons, List.find?_cons, hpf x]
      cases p x <;> simp [ih]

/-- C1: posting any journal entry flagged `is_client_fund = true` leaves the
monthly P&L revenue aggregation (sum of credit minus debit over lines of
`R`-prefixed accounts, bucketed by `[start, stop)`) unchanged, whatever
account codes its lines reference — all of that entry's lines are excluded
from the aggregation. -/
theorem C1_fund_segregation_monthly_revenue (db : DB) (now : Nat)
    (d : String) (r : Option String) (ls : List (String × Amount × Amount))
    (ci vi ai ii : Option Nat) (s : String) (n : Option String)
    (start stop : Nat) :
    monthly_revenue ((_post_journal db now d r ls ci vi ai ii true s n).1)
        start stop = monthly_revenue db start stop := by
  unfold monthly_revenue
  rw [post_journal_fst_chart, post_journal_fst_entries, revenue_of_append]
  rw [revenue_of_single_fund db.chart _
    (post_journal_snd_fund db now d r ls ci vi ai ii true s n) start stop]
  rw [add_zero]

/-- C2: a posted entry is dated at the posting time; when a books-lock date
is configured and the entry's date is on or before it, the entry's status is
forced to `pending` regardless of the requested status; when the entry's
date is after the lock date, or no lock date is configured, the status is
the caller's requested one, with the empty request defaulting to
`approved`. -/
theorem C2_lock_gate (db : DB) (now : Nat) (d : String) (r : Option String)
    (ls : List (String × Amount × Amount)) (ci vi ai ii : Option Nat)
    (f : Bool) (status : String) (n : Option String) :
    ((_post_journal db now d r ls ci vi ai ii f status n).2).entry_date = now ∧
    (∀ lock, lock_date db = some lock → now ≤ lock →
      ((_post_journal db now d r ls ci vi ai ii f status n).2).status =
        "pending") ∧
    (∀ lock, lock_date db = some lock → lock < now →
      ((_post_journal db now d r ls ci vi ai ii f status n).2).status =
        pyOrStr status "approved") ∧
    (lock_date db = none →
      ((_post_journal db now d r ls ci vi ai ii f status n).2).status =
        pyOrStr status "approved") := by
  refine ⟨post_journal_snd_date db now d r ls ci vi ai ii f status n, ?_, ?_, ?_⟩
  · intro lock hl hle
    rw [post_journal_snd_status, lock_adjusted_status_eq, hl]
    dsimp only
    rw [if_pos hle]
    rfl
  · intro lock hl hlt
    rw [post_journal_snd_status, lock_adjusted_status_eq, hl]
    dsimp only
    have hn : ¬ now ≤ lock := by omega
    rw [if_neg hn]
  · intro hl
    rw [post_journal_snd_status, lock_adjusted_status_eq, hl]

/-- An empty chart of accounts, for concrete witnesses. -/
def chart0 : Chart := ⟨[], [], [], [], [], [], 0⟩

/-- A bank account row `A100` with id 0, for concrete witnesses. -/
def bankAcc : Account := ⟨0, "A100", "Bank", "ASSET", none, none, true⟩

/-- A revenue account row `R300` with id 1, for concrete witnesses. -/
def revAcc : Account := ⟨1, "R300", "Service Fees", "REVENUE", none, none, true⟩

/-- A chart seeded with the bank and revenue accounts and one customer,
for concrete witnesses. -/
def chart1 : Chart :=
  ⟨[bankAcc, revAcc], [], [], [⟨7, some "Acme", none⟩], [], [], 2⟩

/-- An empty database over `chart1`, default rate 0.385, for witnesses. -/
def db1 : DB := ⟨chart1, [], [], [], [], [], [], none, 77/200, 0, 0, 0, 0⟩

/-- `db1` with a books-lock date of 10 configured. -/
def dbLocked : DB := { db1 with settings := some ⟨some 10⟩ }

/-- C2 witness: with a lock date of 10 configured, a posting at time 9 with
requested status `approved` comes out `pending`. -/
theorem C2_lock_gate_witness :
    lock_date dbLocked = some 10 ∧ (9 : Nat) ≤ 10 ∧
    ((_post_journal dbLocked 9 "x" none [] none none none none false
      "approved" none).2).status = "pending" :=
  ⟨rfl, by decide,
    (C2_lock_gate dbLocked 9 "x" none [] none none none none false "approved"
      none).2.1 10 rfl (by decide)⟩

/-- C3: the posting engine always creates and returns the entry (appending
it to the journal, with no balance check that could reject it); each triple
whose account code resolves produces exactly one line carrying its amounts,
in order, and each triple whose code does not resolve produces no line and
no error. -/
theorem C3_silent_line_skip (db : DB) (now : Nat) (d : String)
    (r : Option String) (ls : List (String × Amount × Amount))
    (ci vi ai ii : Option Nat) (f : Bool) (s : String) (n : Option String) :
    ((_post_journal db now d r ls ci vi ai ii f s n).1).entries =
      db.entries ++ [(_post_journal db now d r ls ci vi ai ii f s n).2] ∧
    ((_post_journal db now d r ls ci vi ai ii f s n).2).lines.length =
      ls.countP (fun t => (_get_account db.chart t.1).isSome) ∧
    ((_post_journal db now d r ls ci vi ai ii f s n).2).lines.map
        (fun l => (l.debit, l.credit)) =
      (ls.filter (fun t => (_get_account db.chart t.1).isSome)).map
        (fun t => (t.2.1, t.2.2)) := by
  refine ⟨post_journal_fst_entries db now d r ls ci vi ai ii f s n, ?_, ?_⟩
  · rw [post_journal_snd_lines]
    exact post_lines_length db.chart ls
  · rw [post_journal_snd_lines]
    exact post_lines_amounts db.chart ls

/-- C4: provisioning the client (resp. vehicle) sub-ledger twice in sequence
returns the same mapping row both times — hence identical derived account
codes — and the second call changes nothing: no new Account rows and no new
mapping row. -/
theorem C4_idempotent_provisioning (ch : Chart) (c : Customer) (v : Vehicle) :
    _ensure_client_accounts (_ensure_client_accounts ch c).1 c =
      _ensure_client_accounts ch c ∧
    _ensure_vehicle_accounts (_ensure_vehicle_accounts ch v).1 v =
      _ensure_vehicle_accounts ch v :=
  ⟨ensure_client_idem ch c, ensure_vehicle_idem ch v⟩

/-- C6: on any well-formed state, receiving a customer deposit and then
refunding it (still `held`) succeeds, leaves the credit balance of every
account code — in particular the client's derived deposit code — exactly
where it started, and leaves every monthly revenue bucket unchanged, because
both postings are client-fund flagged and reverse each other on the same
resolved deposit code. -/
theorem C6_deposit_round_trip (db : DB) (now1 now2 cid : Nat) (amt : Amount)
    (m ref : Option String) (vid aid : Option Nat)
    (hdep : deposits_wf db) (hlin : lines_wf db) :
    (refund_customer_deposit
      (record_customer_deposit db now1 cid amt m ref vid aid).1 now2
      (record_customer_deposit db now1 cid amt m ref vid aid).2.id).2 = true ∧
    (∀ code, account_code_balance
      ((refund_customer_deposit
        (record_customer_deposit db now1 cid amt m ref vid aid).1 now2
        (record_customer_deposit db now1 cid amt m ref vid aid).2.id).1) code =
      account_code_balance db code) ∧
    (∀ start stop, monthly_revenue
      ((refund_customer_deposit
        (record_customer_deposit db now1 cid amt m ref vid aid).1 now2
        (record_customer_deposit db now1 cid amt m ref vid aid).2.id).1)
        start stop = monthly_revenue db start stop) := by
  obtain ⟨chf, c, e1, e2, hext, hf1, hf2, hl1, hl2, htrue, hchart, hentries⟩ :=
    round_trip_destruct db now1 now2 cid amt m ref vid aid hdep
  refine ⟨htrue, ?_, ?_⟩
  · intro code
    unfold account_code_balance
    rw [hchart, hentries, balance_of_append, balance_of_append]
    have hcong : balance_of chf db.entries code =
        balance_of db.chart db.entries code :=
      balance_of_congr
        (fun e he l hl => line_account_extends hext (hlin e he l hl)) code
    have hcancel := post_lines_cancel chf amt "A100" c code e1 e2 hl1 hl2
    rw [hcong, add_assoc, hcancel, add_zero]
  · intro start stop
    unfold monthly_revenue
    rw [hchart, hentries, revenue_of_append, revenue_of_append]
    have hcong : revenue_of chf db.entries start stop =
        revenue_of db.chart db.entries start stop :=
      revenue_of_congr
        (fun e he l hl => line_account_extends hext (hlin e he l hl)) start stop
    rw [hcong, revenue_of_single_fund chf e1 hf1, revenue_of_single_fund chf e2 hf2,
      add_zero, add_zero]

/-- C10: refunding a missing deposit, or one whose status is not `held`,
returns `False` and changes nothing; and for any state, refunding the same
deposit id a second time returns `False` and changes nothing — the reversal
is posted at most once. -/
theorem C10_refund_at_most_once (db : DB) (now1 now2 did : Nat) :
    (db.deposits.find? (fun d => d.id == did) = none →
      refund_customer_deposit db now1 did = (db, false)) ∧
    (∀ dep, db.deposits.find? (fun d => d.id == did) = some dep →
      ¬ dep.status = "held" →
      refund_customer_deposit db now1 did = (db, false)) ∧
    refund_customer_deposit
        ((refund_customer_deposit db now1 did).1) now2 did =
      (((refund_customer_deposit db now1 did).1), false) := by
  refine ⟨refund_none db now1 did, refund_not_held db now1 did, ?_⟩
  cases hfind : db.deposits.find? (fun d => d.id == did) with
  | none =>
      rw [refund_none db now1 did hfind]
      exact refund_none db now2 did hfind
  | some dep =>
      by_cases hheld : dep.status = "held"
      · have hfound := refund_found db now1 did dep hfind hheld
        have hpf : ∀ x : CustomerDeposit,
            (((fun (d : CustomerDeposit) =>
              if d.id == did
              then { d with status := "refunded", refunded_at := some now1 }
              else d) x).id == did) = (x.id == did) := by
          intro x
          dsimp only
          by_cases hx : (x.id == did) = true
          · rw [if_pos hx]
          · rw [if_neg hx]
        have hdeps2 : ((refund_customer_deposit db now1 did).1).deposits =
            db.deposits.map (fun (d : CustomerDeposit) =>
              if d.id == did
              then { d with status := "refunded", refunded_at := some now1 }
              else d) := by
          rw [hfound]
          rfl
        have hpred : (dep.id == did) = true := by
          have hp := List.find?_some hfind
          simpa using hp
        have hfind2 : ((refund_customer_deposit db now1 did).1).deposits.find?
            (fun d => d.id == did) =
            some (if dep.id == did
              then { dep with status := "refunded", refunded_at := some now1 }
              else dep) := by
          rw [hdeps2, find?_map_comm _ _ hpf db.deposits, hfind]
          rfl
        refine refund_not_held _ now2 did _ hfind2 ?_
        rw [if_pos hpred]
        simp
      · rw [refund_not_held db now1 did dep hfind hheld]
        exact refund_not_held db now2 did dep hfind hheld

lemma later_rate_fold_spec :
    ∀ (rs : List ExchangeRate) (acc : Option ExchangeRate),
      (∀ b, acc = some b →
        ∃ m, rs.foldl later_rate acc = some m ∧
          b.effective_at ≤ m.effective_at) ∧
      (∀ r ∈ rs, ∃ m, rs.foldl later_rate acc = some m ∧
        r.effective_at ≤ m.effective_at) ∧
      (∀ m, rs.foldl later_rate acc = some m → m ∈ rs ∨ acc = some m) := by
  intro rs
  induction rs with
  | nil =>
      intro acc
      refine ⟨?_, ?_, ?_⟩
      · intro b hb
        exact ⟨b, hb, le_refl _⟩
      · intro r hr
        simp at hr
      · intro m hm
        exact Or.inr hm
  | cons r rs ih =>
      intro acc
      have hstep : ∃ x, later_rate acc r = some x ∧
          r.effective_at ≤ x.effective_at ∧
          (∀ b, acc = some b → b.effective_at ≤ x.effective_at) ∧
          (x = r ∨ acc = some x) := by
        cases acc with
        | none =>
            refine ⟨r, rfl, le_refl _, ?_, Or.inl rfl⟩
            intro b hb
            cases hb
        | some b =>
            by_cases hlt : b.effective_at < r.effective_at
            · refine ⟨r, ?_, le_refl _, ?_, Or.inl rfl⟩
              · simp only [later_rate]
                rw [if_pos hlt]
              · intro b2 hb2
                injection hb2 with hb2
                subst hb2
                omega
            · refine ⟨b, ?_, by omega, ?_, Or.inr rfl⟩
              · simp only [later_rate]
                rw [if_neg hlt]
              · intro b2 hb2
                injection hb2 with hb2
                subst hb2
                exact le_refl _
      obtain ⟨x, hx, hrx, hbx, hxor⟩ := hstep
      refine ⟨?_, ?_, ?_⟩
      · intro b hb
        obtain ⟨m, hm, hxm⟩ := (ih (later_rate acc r)).1 x hx
        exact ⟨m, by simpa [List.foldl_cons] using hm,
          le_trans (hbx b hb) hxm⟩
      · intro q hq
        rcases List.mem_cons.mp hq with hq | hq
        · obtain ⟨m, hm, hxm⟩ := (ih (later_rate acc r)).1 x hx
          refine ⟨m, by simpa [List.foldl_cons] using hm, ?_⟩
          rw [hq]
          exact le_trans hrx hxm
        · obtain ⟨m, hm, hqm⟩ := (ih (later_rate acc r)).2.1 q hq
          exact ⟨m, by simpa [List.foldl_cons] using hm, hqm⟩
      · intro m hm
        rw [List.foldl_cons] at hm
        rcases (ih (later_rate acc r)).2.2 m hm with hmem | hacc
        · exact Or.inl (List.mem_cons_of_mem _ hmem)
        · rw [hacc] at hx
          rcases hxor with hxr | hxa
          · injection hx with hx2
            rw [← hx2] at hxr
            exact Or.inl (by rw [hxr]; exact List.mem_cons_self _ _)
          · rw [← hx] at hxa
            exact Or.inr hxa

/-- When `latest_rate_row` returns a row, it is a stored row with maximal
`effective_at`. -/
lemma latest_rate_row_max (db : DB) (m : ExchangeRate)
    (h : latest_rate_row db = some m) :
    m ∈ db.rates ∧ ∀ r ∈ db.rates, r.effective_at ≤ m.effective_at := by
  unfold latest_rate_row at h
  have hspec := later_rate_fold_spec db.rates none
  constructor
  · rcases hspec.2.2 m h with hmem | hacc
    · exact hmem
    · cases hacc
  · intro r hr
    obtain ⟨m2, hm2, hrm⟩ := hspec.2.1 r hr
    rw [h] at hm2
    injection hm2 with hm2
    subst hm2
    exact hrm

/-- `latest_rate_row` returns `none` exactly when no rate is stored. -/
lemma latest_rate_row_none (db : DB) (h : latest_rate_row db = none) :
    db.rates = [] := by
  cases hr : db.rates with
  | nil => rfl
  | cons r rs =>
      have hspec := later_rate_fold_spec db.rates none
      obtain ⟨m, hm, _⟩ := hspec.2.1 r (by rw [hr]; exact List.mem_cons_self _ _)
      unfold latest_rate_row at h
      rw [h] at hm
      cases hm

/-- The claim's rate selection, following the spec's words: the most recent
stored rate FOR THE GIVEN base/quote pair, else the configured default.
Stated only for comparison with the implementation's pair-blind
`latest_rate_row`. -/
def spec_rate_for_pair (db : DB) (base quote : String) : Amount :=
  match (db.rates.filter (fun r =>
      r.base_currency == base && r.quote_currency == quote)).foldl
      later_rate none with
  | some r => r.rate
  | none => db.omr_exchange_rate

/-- `db1` with two stored rates: USD→OMR 2 effective at 1, and a more
recent EUR→OMR 3 effective at 2. -/
def dbRates : DB :=
  { db1 with rates := [⟨1, "USD", "OMR", 2, 1⟩, ⟨2, "EUR", "OMR", 3, 2⟩] }

lemma post_journal_fst_expenses (db : DB) (now : Nat) (d : String)
    (r : Option String) (ls : List (String × Amount × Amount))
    (ci vi ai ii : Option Nat) (f : Bool) (s : String) (n : Option String) :
    ((_post_journal db now d r ls ci vi ai ii f s n).1).expenses =
      db.expenses := rfl

lemma post_journal_fst_invoice_items (db : DB) (now : Nat) (d : String)
    (r : Option String) (ls : List (String × Amount × Amount))
    (ci vi ai ii : Option Nat) (f : Bool) (s : String) (n : Option String) :
    ((_post_journal db now d r ls ci vi ai ii f s n).1).invoice_items =
      db.invoice_items := rfl

/-- The expense row a non-OMR operational-cost recording persists. -/
def cost_expense_row (db : DB) (vid aid : Option Nat) (cat : String)
    (amt : Amount) (curr : String) (d s : Option String) (pfb : Bool) :
    OperationalExpense :=
  { id := db.next_expense_id, vehicle_id := vid, auction_id := aid,
    category := cat, original_amount := amt,
    original_currency := py_upper (pyOrStr curr "OMR"),
    amount_omr := amt * rate_used db,
    exchange_rate_id := (latest_rate_row db).map (fun r => r.id),
    paid := pfb, description := d, supplier := s }

/-- The expense row created by a non-OMR operational cost: converted with
the pair-blind latest stored rate (or the default), recording that rate
row's id. -/
lemma record_cost_expense (db : DB) (now : Nat) (vid aid : Option Nat)
    (cat : String) (amt : Amount) (curr : String) (d s : Option String)
    (pfb : Bool) (hc1 : ¬ curr = "") (hc2 : ¬ py_upper curr = "OMR") :
    ((record_operational_cost db now vid aid cat amt curr d s pfb).1).expenses
      = db.expenses ++ [cost_expense_row db vid aid cat amt curr d s pfb] := by
  have hno : (decide (¬ curr = "") && decide (¬ py_upper curr = "OMR")) = true := by
    simp [hc1, hc2]
  unfold record_operational_cost cost_expense_row
  simp only [hno, if_true, if_neg hc2]
  split
  · rfl
  · rfl

/-- The invoice items persisted by `create_shipping_invoice`: the optional
shipping-cost item and the optional converted-fines item. -/
lemma shipping_invoice_items (db : DB) (now cust veh : Nat)
    (ship fines : Amount) :
    ((create_shipping_invoice db now cust veh ship fines).1).invoice_items =
      db.invoice_items ++
        ((if decide (0 < ship) = true
          then [⟨db.next_invoice_id, "Shipping cost", ship⟩] else []) ++
         (if decide (0 < fines * rate_used db) = true
          then [⟨db.next_invoice_id, "Fines (converted to OMR)",
                 fines * rate_used db⟩] else [])) := by
  unfold create_shipping_invoice
  dsimp only
  split <;> (try split) <;> (try split) <;> rfl

/-- The shipping-invoice fines item is the USD fines amount converted with
the pair-blind latest stored rate (or the default). -/
lemma shipping_fines_item (db : DB) (now cust veh : Nat)
    (ship fines : Amount) (hpos : 0 < fines * rate_used db) :
    ⟨db.next_invoice_id, "Fines (converted to OMR)", fines * rate_used db⟩ ∈
      ((create_shipping_invoice db now cust veh ship fines).1).invoice_items := by
  rw [shipping_invoice_items]
  refine List.mem_append.mpr (Or.inr ?_)
  refine List.mem_append.mpr (Or.inr ?_)
  rw [if_pos (by simpa using hpos)]
  exact List.mem_singleton.mpr rfl

/-- C5 counterexample: with a USD→OMR rate of 2 stored (effective at 1)
and a more recent EUR→OMR rate of 3 (effective at 2), recording a USD 100
operational cost converts with 3 — the latest rate of ANY pair — rather
than with the latest USD→OMR rate 2 that the claim requires, even though a
stored rate for the pair exists. -/
theorem C5_counterexample :
    ((record_operational_cost dbRates 3 none none "misc" 100 "USD" none none
      true).1).expenses.map (fun e => e.amount_omr) = [300] ∧
    spec_rate_for_pair dbRates "USD" "OMR" = 2 ∧
    ¬ (300 : Amount) = 100 * 2 := by
  refine ⟨?_, ?_, by norm_num⟩
  · rw [record_cost_expense dbRates 3 none none "misc" 100 "USD" none none
      true (by decide) (by decide)]
    have hr : rate_used dbRates = 3 := rfl
    unfold cost_expense_row
    rw [hr]
    norm_num [dbRates, db1]
  · have hf : (dbRates.rates.filter (fun r =>
        r.base_currency == "USD" && r.quote_currency == "OMR")) =
        [⟨1, "USD", "OMR", 2, 1⟩] := rfl
    unfold spec_rate_for_pair
    rw [hf]
    rfl

/-- C5 (amended): every non-OMR conversion — the operational-cost recording
and the shipping-invoice fines — multiplies by the most recently stored
`ExchangeRate` regardless of currency pair (the stored row with maximal
`effective_at`); only when no rate row is stored at all does it use the
configured default. -/
theorem C5_latest_rate_any_pair (db : DB) (now : Nat) (vid aid : Option Nat)
    (cat : String) (amt : Amount) (curr : String) (d s : Option String)
    (pfb : Bool) (cust veh : Nat) (ship fines : Amount)
    (hc1 : ¬ curr = "") (hc2 : ¬ py_upper curr = "OMR")
    (hpos : 0 < fines * rate_used db) :
    (∃ exp, ((record_operational_cost db now vid aid cat amt curr d s
        pfb).1).expenses.getLast? = some exp ∧
      exp.amount_omr = amt * rate_used db ∧
      exp.exchange_rate_id = (latest_rate_row db).map (fun r => r.id)) ∧
    (⟨db.next_invoice_id, "Fines (converted to OMR)", fines * rate_used db⟩ ∈
      ((create_shipping_invoice db now cust veh ship
        fines).1).invoice_items) ∧
    (∀ m, latest_rate_row db = some m →
      m ∈ db.rates ∧ ∀ r ∈ db.rates, r.effective_at ≤ m.effective_at) ∧
    (latest_rate_row db = none →
      db.rates = [] ∧ rate_used db = db.omr_exchange_rate) := by
  refine ⟨?_, shipping_fines_item db now cust veh ship fines hpos,
    latest_rate_row_max db, ?_⟩
  · refine ⟨cost_expense_row db vid aid cat amt curr d s pfb, ?_, rfl, rfl⟩
    rw [record_cost_expense db now vid aid cat amt curr d s pfb hc1 hc2]
    rw [List.getLast?_concat]
  · intro h
    refine ⟨latest_rate_row_none db h, ?_⟩
    unfold rate_used
    rw [h]

/-- C5 witness: on `dbRates`, a USD cost of 100 converts via the latest
stored rate (EUR→OMR 3), and the fines conversion uses the same rate. -/
theorem C5_latest_rate_any_pair_witness :
    (¬ ("USD" : String) = "") ∧ (¬ py_upper "USD" = "OMR") ∧
    (0 : Amount) < 200 * rate_used dbRates ∧
    (∃ exp, ((record_operational_cost dbRates 3 none none "misc" 100 "USD"
        none none true).1).expenses.getLast? = some exp ∧
      exp.amount_omr = 100 * rate_used dbRates ∧
      exp.exchange_rate_id = (latest_rate_row dbRates).map (fun r => r.id)) :=
  ⟨by decide, by decide,
    by simp [show rate_used dbRates = 3 from rfl],
    (C5_latest_rate_any_pair dbRates 3 none none "misc" 100 "USD" none none
      true 7 9 0 200 (by decide) (by decide)
      (by simp [show rate_used dbRates = 3 from rfl])).1⟩

/-- `chart1` extended with a non-deposit liability account `L210`. -/
def chartBS : Chart :=
  ⟨[bankAcc, revAcc, ⟨2, "L210", "Accounts Payable", "LIABILITY", none, none, true⟩],
   [], [], [⟨7, some "Acme", none⟩], [], [], 3⟩

/-- A ledger holding one posted entry `Dr L210 100 / Cr A100 100`, which
drives the non-deposit liability balance negative. -/
def dbBS : DB :=
  (_post_journal { db1 with chart := chartBS } 1 "adjustment" none
    [("L210", 100, 0), ("A100", 0, 100)] none none none none false
    "approved" none).1

/-- C7 counterexample: with a single entry debiting the non-deposit
liability `L210` by 100, total liabilities minus client deposits is −100,
but the report clamps other liabilities to `max 0 …` and publishes 0 — not
the difference the claim states. -/
theorem C7_counterexample :
    balance_sheet_other_liabilities dbBS = 0 ∧
    balance_sheet_liabilities_total dbBS - balance_sheet_client_deposits dbBS
      = -100 ∧
    ¬ balance_sheet_other_liabilities dbBS =
      balance_sheet_liabilities_total dbBS -
        balance_sheet_client_deposits dbBS := by
  have hs : sum_acct dbBS "L" none = (100 : Amount) - 0 + 0 := rfl
  have hlt : balance_sheet_liabilities_total dbBS = -100 := by
    unfold balance_sheet_liabilities_total
    rw [hs]; norm_num
  have hz : balance_sheet_client_deposits dbBS = -(0 : Amount) := rfl
  have hcd : balance_sheet_client_deposits dbBS = 0 := by
    rw [hz]; norm_num
  refine ⟨?_, ?_, ?_⟩
  · unfold balance_sheet_other_liabilities
    rw [hlt, hcd]
    norm_num
  · rw [hlt, hcd]
    norm_num
  · unfold balance_sheet_other_liabilities
    rw [hlt, hcd]
    norm_num


lemma sum_map_sub_neg {α : Type} (l : List α) (f g : α → Amount) :
    ((l.map (fun x => f x - g x)).sum : Amount) =
      -((l.map (fun x => g x - f x)).sum) := by
  induction l with
  | nil => simp
  | cons a t ih =>
      simp only [List.map_cons, List.sum_cons, ih]
      ring

/-- C7 (amended): the balance sheet computes assets as Σ(debit − credit)
over `A%` accounts excluding client-fund entries, client deposits as
Σ(credit − debit) over `L200%` accounts across all entries, other
liabilities as total liabilities minus client deposits CLAMPED BELOW AT
ZERO (`max(0.0, …)` — the claim omits the clamp), and equity as assets
minus (client deposits plus other liabilities). -/
theorem C7_balance_sheet (db : DB) :
    balance_sheet_assets db =
      (((entry_line_pairs db.entries).filter (fun pr =>
          line_code_is db.chart pr.2 (fun c => code_like "A" c) &&
          pr.1.is_client_fund == false)).map
        (fun pr => pr.2.debit - pr.2.credit)).sum ∧
    balance_sheet_client_deposits db =
      (((entry_line_pairs db.entries).filter (fun pr =>
          line_code_is db.chart pr.2 (fun c => code_like "L200" c))).map
        (fun pr => pr.2.credit - pr.2.debit)).sum ∧
    balance_sheet_other_liabilities db =
      max 0 (balance_sheet_liabilities_total db -
        balance_sheet_client_deposits db) ∧
    balance_sheet_equity db =
      balance_sheet_assets db -
        (balance_sheet_client_deposits db + balance_sheet_other_liabilities db) := by
  refine ⟨rfl, ?_, rfl, rfl⟩
  unfold balance_sheet_client_deposits
  exact (sum_map_sub_neg
    ((entry_line_pairs db.entries).filter (fun pr =>
      line_code_is db.chart pr.2 (fun c => code_like "L200" c)))
    (fun pr => pr.2.credit) (fun pr => pr.2.debit)).symm

/-- C6 witness: a 1000 deposit for customer 7 on the seeded empty ledger,
then its refund: the refund succeeds and the derived deposit code
`L200-C00007` ends with its original (zero) balance. -/
theorem C6_deposit_round_trip_witness :
    deposits_wf db1 ∧ lines_wf db1 ∧
    (refund_customer_deposit
      (record_customer_deposit db1 1 7 1000 none none none none).1 2
      (record_customer_deposit db1 1 7 1000 none none none none).2.id).2 = true ∧
    account_code_balance
      ((refund_customer_deposit
        (record_customer_deposit db1 1 7 1000 none none none none).1 2
        (record_customer_deposit db1 1 7 1000 none none none none).2.id).1)
      "L200-C00007" = account_code_balance db1 "L200-C00007" :=
  ⟨by decide, by decide,
    (C6_deposit_round_trip db1 1 2 7 1000 none none none none (by decide)
      (by decide)).1,
    (C6_deposit_round_trip db1 1 2 7 1000 none none none none (by decide)
      (by decide)).2.1 "L200-C00007"⟩

/-- C10 witness: on the empty ledger no deposit with id 1 exists, and
refunding it returns `False` with the state unchanged. -/
theorem C10_refund_at_most_once_witness :
    db1.deposits.find? (fun d => d.id == 1) = none ∧
    refund_customer_deposit db1 3 1 = (db1, false) :=
  ⟨rfl, (C10_refund_at_most_once db1 3 4 1).1 rfl⟩

/-! Vehicle statement: structural lemmas for C8. -/

lemma build_statement_cons (run : Amount)
    (r : JournalEntry × JournalLine × Account)
    (rest : List (JournalEntry × JournalLine × Account)) :
    build_statement run (r :: rest) =
      { date := r.1.entry_date, description := r.1.description,
        account_code := r.2.2.code, account_name := r.2.2.name,
        debit := r.2.1.debit, credit := r.2.1.credit,
        balance := run + (r.2.1.debit - r.2.1.credit) } ::
        build_statement (run + (r.2.1.debit - r.2.1.credit)) rest := rfl

lemma build_statement_map_date (run : Amount)
    (l : List (JournalEntry × JournalLine × Account)) :
    (build_statement run l).map StatementRow.date =
      l.map (fun x => x.1.entry_date) := by
  induction l generalizing run with
  | nil => rfl
  | cons r t ih =>
      rw [build_statement_cons, List.map_cons, List.map_cons, ih]

lemma build_statement_balance_chain (run : Amount)
    (l : List (JournalEntry × JournalLine × Account)) :
    List.Chain' (fun a b => b.balance = a.balance + (b.debit - b.credit))
      (build_statement run l) ∧
    ∀ r, (build_statement run l).head? = some r →
      r.balance = run + (r.debit - r.credit) := by
  induction l generalizing run with
  | nil =>
      refine ⟨List.chain'_nil, ?_⟩
      intro r h
      simp [build_statement] at h
  | cons x t ih =>
      rw [build_statement_cons]
      constructor
      · rw [List.chain'_cons']
        refine ⟨?_, (ih (run + (x.2.1.debit - x.2.1.credit))).1⟩
        intro y hy
        rw [Option.mem_def] at hy
        have hb := (ih (run + (x.2.1.debit - x.2.1.credit))).2 y hy
        rw [hb]
      · intro r h
        rw [List.head?_cons] at h
        injection h with h2
        subst h2
        rfl

lemma build_statement_last (run : Amount)
    (x : JournalEntry × JournalLine × Account)
    (t : List (JournalEntry × JournalLine × Account)) :
    ∃ r, (build_statement run (x :: t)).getLast? = some r ∧
      r.balance = run +
        ((x :: t).map (fun v => v.2.1.debit - v.2.1.credit)).sum := by
  induction t generalizing run x with
  | nil =>
      refine ⟨_, rfl, ?_⟩
      show run + (x.2.1.debit - x.2.1.credit) =
        run + (([x].map (fun v => v.2.1.debit - v.2.1.credit)).sum)
      simp only [List.map_cons, List.map_nil, List.sum_cons, List.sum_nil,
        add_zero]
  | cons y t2 ih =>
      obtain ⟨r, hr, hb⟩ := ih (run + (x.2.1.debit - x.2.1.credit)) y
      refine ⟨r, ?_, ?_⟩
      · rw [build_statement_cons, build_statement_cons,
          List.getLast?_cons_cons]
        rw [build_statement_cons] at hr
        exact hr
      · rw [hb]
        simp only [List.map_cons, List.sum_cons]
        ring

lemma entry_le_trans : ∀ a b c : JournalEntry, entry_le a b = true →
    entry_le b c = true → entry_le a c = true := by
  intro a b c h1 h2
  unfold entry_le at h1 h2 ⊢
  simp only [Bool.or_eq_true, Bool.and_eq_true, decide_eq_true_eq] at h1 h2 ⊢
  omega

lemma entry_le_total : ∀ a b : JournalEntry,
    (entry_le a b || entry_le b a) = true := by
  intro a b
  unfold entry_le
  simp only [Bool.or_eq_true, Bool.and_eq_true, decide_eq_true_eq]
  omega

lemma entry_le_date {a b : JournalEntry} (h : entry_le a b = true) :
    a.entry_date ≤ b.entry_date := by
  unfold entry_le at h
  simp only [Bool.or_eq_true, Bool.and_eq_true, decide_eq_true_eq] at h
  omega

lemma mem_vehicle_block {ch : Chart} {e : JournalEntry}
    {x : JournalEntry × JournalLine × Account}
    (hx : x ∈ e.lines.filterMap (fun l =>
      (line_account ch l).map (fun a => (e, l, a)))) :
    x.1 = e := by
  rw [List.mem_filterMap] at hx
  obtain ⟨l, hl, hfl⟩ := hx
  cases ha : line_account ch l with
  | none => rw [ha] at hfl; cases hfl
  | some a =>
      rw [ha] at hfl
      simp only [Option.map_some', Option.some.injEq] at hfl
      rw [← hfl]

lemma vehicle_rows_dates (db : DB) (vid : Nat) :
    (vehicle_rows db vid).Pairwise
      (fun a b => a.1.entry_date ≤ b.1.entry_date) := by
  unfold vehicle_rows
  rw [List.flatMap_def, List.pairwise_flatten]
  constructor
  · intro l hl
    rw [List.mem_map] at hl
    obtain ⟨e, he, hle⟩ := hl
    refine List.pairwise_of_forall_mem_list ?_
    intro a ha b hb
    rw [← hle] at ha hb
    rw [mem_vehicle_block ha, mem_vehicle_block hb]
  · rw [List.pairwise_map]
    have hs := List.sorted_mergeSort entry_le_trans entry_le_total
      (db.entries.filter (fun e => e.vehicle_id == some vid))
    refine hs.imp ?_
    intro a b hab x hx y hy
    rw [mem_vehicle_block hx, mem_vehicle_block hy]
    exact entry_le_date hab

lemma filterMap_line_proj (ch : Chart) (e : JournalEntry)
    (ls : List JournalLine)
    (h : ∀ l ∈ ls, (line_account ch l).isSome = true) :
    (ls.filterMap (fun l =>
      (line_account ch l).map (fun a => (e, l, a)))).map
      (fun x => x.2.1) = ls := by
  induction ls with
  | nil => rfl
  | cons l t ih =>
      have hl := h l (List.mem_cons_self l t)
      cases ha : line_account ch l with
      | none => rw [ha] at hl; cases hl
      | some a =>
          rw [List.filterMap_cons]
          simp only [ha, Option.map_some', List.map_cons]
          rw [ih (fun m hm => h m (List.mem_cons_of_mem l hm))]

lemma vehicle_rows_sum (db : DB) (vid : Nat) (h : lines_resolvable db) :
    ((vehicle_rows db vid).map
      (fun v => v.2.1.debit - v.2.1.credit)).sum =
      vehicle_lines_total db vid := by
  unfold vehicle_rows vehicle_lines_total
  rw [List.map_flatMap, List.map_flatMap]
  have hperm := List.mergeSort_perm
    (db.entries.filter (fun e => e.vehicle_id == some vid)) entry_le
  have hflat := hperm.flatMap_right (fun e =>
    (e.lines.filterMap (fun l =>
      (line_account db.chart l).map (fun a => (e, l, a)))).map
      (fun v => v.2.1.debit - v.2.1.credit))
  have hsum : ∀ e ∈ db.entries.filter (fun e => e.vehicle_id == some vid),
      ((e.lines.filterMap (fun l =>
        (line_account db.chart l).map (fun a => (e, l, a)))).map
        (fun v => v.2.1.debit - v.2.1.credit)) =
      e.lines.map (fun l => l.debit - l.credit) := by
    intro e he
    have he2 := (List.mem_filter.mp he).1
    have hres : ∀ l ∈ e.lines, (line_account db.chart l).isSome = true :=
      fun l hl => h e he2 l hl
    conv_rhs => rw [← filterMap_line_proj db.chart e e.lines hres]
    rw [List.map_map]
    rfl
  exact hflat.sum_eq.trans (congrArg List.sum (List.flatMap_congr hsum))

lemma outstanding_eq_total (db : DB) (vid : Nat)
    (h : lines_resolvable db) :
    outstanding_balance db vid = vehicle_lines_total db vid := by
  unfold outstanding_balance vehicle_statement
  have hs := vehicle_rows_sum db vid h
  cases hrows : vehicle_rows db vid with
  | nil =>
      rw [hrows] at hs
      simp only [List.map_nil, List.sum_nil] at hs
      rw [← hs]
      rfl
  | cons x t =>
      obtain ⟨r, hr, hb⟩ := build_statement_last 0 x t
      rw [hrows] at hs
      rw [hr]
      dsimp only
      rw [hb, zero_add, hs]

/-- C8: on a ledger whose journal lines all resolve to accounts (the
foreign-key invariant), the vehicle statement lists its rows in
chronological order; each row's balance is the previous balance plus that
row's `debit − credit`, starting from zero; the reported outstanding
balance equals the sum of `debit − credit` over all journal lines of
entries linked to the vehicle; and a vehicle with no such lines reports an
outstanding balance of zero. -/
theorem C8_vehicle_statement (db : DB) (vid : Nat)
    (h : lines_resolvable db) :
    (vehicle_statement db vid).Pairwise (fun r s => r.date ≤ s.date) ∧
    List.Chain' (fun r s => s.balance = r.balance + (s.debit - s.credit))
      (vehicle_statement db vid) ∧
    (∀ r, (vehicle_statement db vid).head? = some r →
      r.balance = r.debit - r.credit) ∧
    outstanding_balance db vid = vehicle_lines_total db vid ∧
    ((db.entries.filter (fun e => e.vehicle_id == some vid)).flatMap
        (fun e => e.lines) = [] → outstanding_balance db vid = 0) := by
  refine ⟨?_, ?_, ?_, outstanding_eq_total db vid h, ?_⟩
  · have h1 : ((vehicle_statement db vid).map StatementRow.date).Pairwise
        (fun a b => a ≤ b) := by
      unfold vehicle_statement
      rw [build_statement_map_date, List.pairwise_map]
      exact vehicle_rows_dates db vid
    exact List.pairwise_map.mp h1
  · exact (build_statement_balance_chain 0 (vehicle_rows db vid)).1
  · intro r hr
    have h2 := (build_statement_balance_chain 0 (vehicle_rows db vid)).2 r hr
    rw [h2, zero_add]
  · intro h0
    rw [outstanding_eq_total db vid h]
    unfold vehicle_lines_total
    rw [h0]
    rfl

/-- Two postings linked to vehicle 5 on the seeded ledger, for the C8
witness. -/
def dbV : DB :=
  (_post_journal
    (_post_journal db1 1 "storage" none [("A100", 30, 0)] none (some 5)
      none none false "approved" none).1
    2 "fees" none [("A100", 0, 10), ("R300", 10, 0)] none (some 5) none none
    false "approved" none).1

/-- C8 witness: `dbV` resolves all lines, and vehicle 5's outstanding
balance equals the sum of `debit − credit` over its journal lines. -/
theorem C8_vehicle_statement_witness :
    lines_resolvable dbV ∧
    outstanding_balance dbV 5 = vehicle_lines_total dbV 5 :=
  ⟨by decide, (C8_vehicle_statement dbV 5 (by decide)).2.2.2.1⟩

/-! Numeric-input parser: totality and garbage-to-zero lemmas for C9. -/

lemma parse_of_normalize_eq_zero (v : Option String)
    (h : _normalize_number_string v = "0") : _parse_number_input v = 0 := by
  unfold _parse_number_input
  rw [h]
  have hz : py_float_of_string "0" =
      some (((0 : Nat) : Amount) +
        ((0 : Nat) : Amount) / (10 : Amount) ^ (0 : Nat)) := rfl
  rw [hz]
  dsimp only
  norm_num

lemma translate_no_digit {c d : Char} (hc : is_py_digit c = false)
    (hd : translate_char c = some d) : is_py_digit d = false := by
  unfold translate_char at hd
  cases hf : translate_pairs.find? (fun p => p.1 == c) with
  | none =>
      rw [hf] at hd
      dsimp only at hd
      injection hd with h2
      rw [← h2]
      exact hc
  | some p =>
      rw [hf] at hd
      dsimp only at hd
      have hm := List.mem_of_find?_eq_some hf
      have hpc : p.1 = c := by
        have hp := List.find?_some hf
        simpa using hp
      have key : ∀ q ∈ translate_pairs,
          is_py_digit q.1 = true ∨ q.2 = none ∨ q.2 = some (Char.ofNat 46) := by
        decide
      rcases key p hm with hk | hk | hk
      · rw [hpc, hc] at hk
        cases hk
      · rw [hk] at hd
        cases hd
      · rw [hk] at hd
        injection hd with h2
        rw [← h2]
        decide

lemma mem_py_strip {cs : List Char} {c : Char} (h : c ∈ py_strip cs) :
    c ∈ cs := by
  unfold py_strip at h
  rw [List.mem_reverse] at h
  have h1 := (List.dropWhile_sublist _).subset h
  rw [List.mem_reverse] at h1
  exact (List.dropWhile_sublist _).subset h1

lemma mem_comma_step {s : List Char} {c : Char} (hc : c ∈ comma_step s) :
    c ∈ s ∨ c = '.' := by
  unfold comma_step at hc
  split at hc
  · dsimp only at hc
    split at hc
    · split at hc
      · rcases List.mem_append.mp hc with h1 | h1
        · exact Or.inl ((List.takeWhile_sublist _).subset h1)
        · rcases List.mem_cons.mp h1 with h2 | h2
          · exact Or.inr h2
          · exact Or.inl ((List.dropWhile_sublist _).subset
              ((List.tail_sublist _).subset h2))
      · exact Or.inl ((List.filter_sublist _).subset hc)
    · exact Or.inl ((List.filter_sublist _).subset hc)
  · exact Or.inl hc

lemma normalize_chars_no_digit (cs : List Char)
    (h : ∀ a ∈ cs, is_py_digit a = false) :
    ∀ c ∈ ((comma_step (cs.filterMap translate_char)).filter
        (fun c => ¬ c = ' ')).filter
        (fun c => is_py_digit c || c = '.' || c = '-'),
      c.isDigit = false := by
  intro c hc
  rw [List.mem_filter] at hc
  obtain ⟨hc1, hkeep⟩ := hc
  rw [List.mem_filter] at hc1
  obtain ⟨hc2, hsp⟩ := hc1
  rcases mem_comma_step hc2 with hc3 | hc3
  · rw [List.mem_filterMap] at hc3
    obtain ⟨a, ha, hta⟩ := hc3
    have hcd := translate_no_digit (h a ha) hta
    cases hdig : c.isDigit with
    | false => rfl
    | true =>
        exfalso
        unfold is_py_digit at hcd
        rw [hdig] at hcd
        simp at hcd
  · rw [hc3]
    decide

lemma normalize_no_digit (s : String)
    (h : s.toList.any is_py_digit = false) :
    _normalize_number_string (some s) = "0" ∨
    ∀ c ∈ (_normalize_number_string (some s)).toList, c.isDigit = false := by
  have hstr : ∀ a ∈ py_strip s.toList, is_py_digit a = false := by
    intro a ha
    simpa using List.any_eq_false.mp h a (mem_py_strip ha)
  unfold _normalize_number_string
  dsimp only
  split
  · exact Or.inl rfl
  · split
    · exact Or.inl rfl
    · refine Or.inr ?_
      intro c hc
      exact normalize_chars_no_digit (py_strip s.toList) hstr c hc

lemma py_float_none_of_no_digit (s : String)
    (h : ∀ c ∈ s.toList, c.isDigit = false) :
    py_float_of_string s = none := by
  unfold py_float_of_string
  dsimp only
  split
  · have hb : ∀ c ∈ s.toList.tail, c.isDigit = false :=
      fun c hc => h c ((List.tail_sublist _).subset hc)
    split
    · rfl
    · split
      · rfl
      · split
        · rfl
        · exfalso
          rename_i h1 h2 h3
          apply h3
          rw [beq_iff_eq, List.countP_eq_zero]
          intro a ha
          simp [hb a ha]
  · split
    · rfl
    · split
      · rfl
      · split
        · rfl
        · exfalso
          rename_i h1 h2 h3
          apply h3
          rw [beq_iff_eq, List.countP_eq_zero]
          intro a ha
          simp [h a ha]

/-- C9: the numeric-input parser is total with a zero fallback — whenever
the normalized string fails to parse as a float the result is 0, whenever
it parses the result is exactly the parsed value, and any input containing
no digit of the alphabets the normalizer handles (including `None` and
arbitrary garbled text) yields exactly 0 rather than an error. -/
theorem C9_parser_total (v : Option String) :
    (py_float_of_string (_normalize_number_string v) = none →
      _parse_number_input v = 0) ∧
    (∀ q, py_float_of_string (_normalize_number_string v) = some q →
      _parse_number_input v = q) ∧
    (input_has_digit v = false → _parse_number_input v = 0) := by
  refine ⟨?_, ?_, ?_⟩
  · intro h
    unfold _parse_number_input
    rw [h]
  · intro q h
    unfold _parse_number_input
    rw [h]
  · intro h
    cases v with
    | none => exact parse_of_normalize_eq_zero none rfl
    | some s =>
        unfold input_has_digit at h
        rcases normalize_no_digit s h with h0 | h0
        · exact parse_of_normalize_eq_zero (some s) h0
        · have hnone : py_float_of_string
              (_normalize_number_string (some s)) = none :=
            py_float_none_of_no_digit _ h0
          unfold _parse_number_input
          rw [hnone]

/-- C9 witness: the garbled input `"abc, xyz!"` contains no digit, and the
parser coerces it to 0. -/
theorem C9_parser_total_witness :
    input_has_digit (some "abc, xyz!") = false ∧
    _parse_number_input (some "abc, xyz!") = 0 :=
  ⟨by decide, (C9_parser_total (some "abc, xyz!")).2.2 (by decide)⟩

end Acct
